import Mathlib

/-!
# Android boot image and bootloader control block helpers of GRUB

A shallow embedding of `grub-core/loader/android_bootimg.c` and
`grub-core/android/android_bcb.c`, followed by the properties proved about it.

Conventions of the embedding

* bytes are `UInt8`; the C integer types are natural numbers reduced modulo
  `2 ^ 32` (`grub_uint32_t`), `2 ^ 64` (`grub_off_t`) or `2 ^ size_bits`
  (`grub_size_t`), the reduction being written out at every operation;
* the collaborators the two files call but do not define (block devices, the
  allocator, the environment) are parameters: a `Platform` fixes how they
  answer, a `World` is the mutable state they share with the code;
* a C function that can run into undefined behaviour returns an `Option`,
  `none` standing for the undefined execution.
-/

namespace Grub

/-! ## Error codes and shared state -/

/-- Modelled from the spec: the enumeration `grub_err_t` (`include/grub/err.h`
is not among the sources), cut down to the enumerators that the two files or
their collaborators report.  `GRUB_ERR_NONE` is the only one that tests false
in C. -/
inductive grub_err_t
  | GRUB_ERR_NONE
  | GRUB_ERR_OUT_OF_MEMORY
  | GRUB_ERR_FILE_NOT_FOUND
  | GRUB_ERR_BAD_FS
  | GRUB_ERR_UNKNOWN_DEVICE
  | GRUB_ERR_READ_ERROR
  | GRUB_ERR_OUT_OF_RANGE
  deriving DecidableEq, Repr

open grub_err_t

/-- Byte order of the machine GRUB runs on. -/
inductive ByteOrder
  | little
  | big
  deriving DecidableEq, Repr

/-- Modelled from the spec: a block device handle (`grub_disk_t`, declared in
`include/grub/disk.h`, which is not among the sources): its name, the byte stored at every
position, the answer of the read primitive for a request `(offset, size)`
(`GRUB_ERR_NONE` when the request is served), and the progress hook currently
installed on the handle (`none` is the null pointer). -/
structure grub_disk where
  name : String
  data : Nat → UInt8
  read_err : Nat → Nat → grub_err_t
  read_hook : Option Nat := none
  read_hook_data : Option Nat := none

/-- What the surrounding system provides: host byte order, width in bits of
`grub_size_t` and `grub_ssize_t` (32 or 64), the outcome of `grub_disk_open`
for every device name, and which allocation requests (numbered in the order
they are made) the allocator serves. -/
structure Platform where
  host : ByteOrder
  size_bits : Nat
  disk_open : String → Except grub_err_t grub_disk
  alloc_ok : Nat → Bool

/-- Mutable state shared with the collaborators: `grub_errno`, the environment
variables, the read requests made so far (device name, offset and size, latest
first), the names of the devices closed so far (latest first), the number of
allocation requests made so far and the number of blocks released so far. -/
structure World where
  grub_errno : grub_err_t
  env : String → Option (List UInt8)
  reads : List (String × Nat × Nat)
  closed : List String
  allocs : Nat
  frees : Nat

/-- Modelled from the spec: `grub_error (n, ...)` (defined outside the
sources) records `n` in `grub_errno` and returns it. -/
def grub_error (n : grub_err_t) (w : World) : grub_err_t × World :=
  (n, { w with grub_errno := n })

/-- Modelled from the spec: `grub_disk_open (name)` (defined outside the
sources) gives the handle, or the null pointer with the reason left in
`grub_errno`. -/
def grub_disk_open (P : Platform) (name : String) (w : World) : Option grub_disk × World :=
  match P.disk_open name with
  | .ok d => (some d, w)
  | .error e => (none, { w with grub_errno := e })

/-- Modelled from the spec: `grub_disk_close (disk)` (defined outside the
sources), recorded in the list of closed devices. -/
def grub_disk_close (d : grub_disk) (w : World) : World :=
  { w with closed := d.name :: w.closed }

/-- Modelled from the spec: `grub_disk_read (disk, 0, offset, size, buf)`
(defined outside the sources) gives, on success, the `size` bytes of the device
that start at `offset`, and on failure the error, which is also left in
`grub_errno`; the request is recorded either way. -/
def grub_disk_read (d : grub_disk) (offset size : Nat) (w : World) :
    Except grub_err_t (List UInt8) × World :=
  if d.read_err offset size = GRUB_ERR_NONE then
    (.ok ((List.range size).map (fun i => d.data (offset + i))),
      { w with reads := (d.name, offset, size) :: w.reads })
  else
    (.error (d.read_err offset size),
      { w with reads := (d.name, offset, size) :: w.reads,
               grub_errno := d.read_err offset size })

/-- Modelled from the spec: `grub_malloc` and `grub_zalloc` (defined outside
the sources); `true` when the block was obtained, otherwise the null pointer is
returned and `grub_errno` is `GRUB_ERR_OUT_OF_MEMORY`. -/
def grub_malloc (P : Platform) (w : World) : Bool × World :=
  if P.alloc_ok w.allocs then
    (true, { w with allocs := w.allocs + 1 })
  else
    (false, { w with allocs := w.allocs + 1, grub_errno := GRUB_ERR_OUT_OF_MEMORY })

/-- Modelled from the spec: `grub_free (ptr)` (defined outside the sources)
releases a block; a null pointer (`false`) is ignored. -/
def grub_free (ptr : Bool) (w : World) : World :=
  if ptr then { w with frees := w.frees + 1 } else w

/-! ## 32-bit unsigned arithmetic and byte order -/

/-- Sum of two `grub_uint32_t`. -/
def add32 (a b : Nat) : Nat := (a + b) % 2 ^ 32

/-- Difference of two `grub_uint32_t`. -/
def sub32 (a b : Nat) : Nat := (a + 2 ^ 32 - b % 2 ^ 32) % 2 ^ 32

/-- Product of two `grub_uint32_t`. -/
def mul32 (a b : Nat) : Nat := (a * b) % 2 ^ 32

/-- Byte `i` of a buffer. -/
def byteAt (buf : List UInt8) (i : Nat) : Nat := (buf.getD i 0).toNat

/-- Value of the `grub_uint32_t` object stored at byte `off` of a buffer, as the
host reads it. -/
def load32 (host : ByteOrder) (buf : List UInt8) (off : Nat) : Nat :=
  match host with
  | .little =>
    byteAt buf off + 2 ^ 8 * byteAt buf (off + 1) + 2 ^ 16 * byteAt buf (off + 2)
      + 2 ^ 24 * byteAt buf (off + 3)
  | .big =>
    2 ^ 24 * byteAt buf off + 2 ^ 16 * byteAt buf (off + 1) + 2 ^ 8 * byteAt buf (off + 2)
      + byteAt buf (off + 3)

/-- Modelled from the spec: `grub_swap_bytes32` of `include/grub/types.h`
(not among the sources), the reversal of the four bytes of a 32-bit value. -/
def grub_swap_bytes32 (x : Nat) : Nat :=
  2 ^ 24 * (x % 2 ^ 8) + 2 ^ 16 * (x / 2 ^ 8 % 2 ^ 8) + 2 ^ 8 * (x / 2 ^ 16 % 2 ^ 8)
    + x / 2 ^ 24 % 2 ^ 8

/-- Modelled from the spec: `grub_le_to_cpu32` of `include/grub/types.h` (not
among the sources), the identity on a little-endian host and a byte swap on a
big-endian one. -/
def grub_le_to_cpu32 (host : ByteOrder) (x : Nat) : Nat :=
  match host with
  | .little => x
  | .big => grub_swap_bytes32 x

/-! ## The boot image header -/

/-- `BOOT_MAGIC`, the characters of `"ANDROID!"`. -/
def BOOT_MAGIC : List UInt8 := [0x41, 0x4E, 0x44, 0x52, 0x4F, 0x49, 0x44, 0x21]

def BOOT_MAGIC_SIZE : Nat := 8

def BOOT_NAME_SIZE : Nat := 16

def BOOT_ARGS_SIZE : Nat := 512

def BOOT_EXTRA_ARGS_SIZE : Nat := 1024

/-- The packed `struct boot_img_hdr`. -/
structure boot_img_hdr where
  magic : List UInt8
  kernel_size : Nat
  kernel_addr : Nat
  ramdisk_size : Nat
  ramdisk_addr : Nat
  second_size : Nat
  second_addr : Nat
  tags_addr : Nat
  page_size : Nat
  unused0 : Nat
  unused1 : Nat
  name : List UInt8
  cmdline : List UInt8
  id : List Nat
  extra_cmdline : List UInt8

/-- `sizeof (struct boot_img_hdr)`: the members are packed in declaration
order. -/
def sizeof_boot_img_hdr : Nat :=
  BOOT_MAGIC_SIZE + 4 * 10 + BOOT_NAME_SIZE + BOOT_ARGS_SIZE + 4 * 8 + BOOT_EXTRA_ARGS_SIZE

/-- The bytes `off, ..., off + n - 1` of a buffer. -/
def bytesAt (buf : List UInt8) (off n : Nat) : List UInt8 :=
  (List.range n).map (fun i => buf.getD (off + i) 0)

/-- The members of a `struct boot_img_hdr` that overlays a buffer, as the host
sees them before any conversion. -/
def hdr_overlay (host : ByteOrder) (buf : List UInt8) : boot_img_hdr where
  magic := bytesAt buf 0 BOOT_MAGIC_SIZE
  kernel_size := load32 host buf 8
  kernel_addr := load32 host buf 12
  ramdisk_size := load32 host buf 16
  ramdisk_addr := load32 host buf 20
  second_size := load32 host buf 24
  second_addr := load32 host buf 28
  tags_addr := load32 host buf 32
  page_size := load32 host buf 36
  unused0 := load32 host buf 40
  unused1 := load32 host buf 44
  name := bytesAt buf 48 BOOT_NAME_SIZE
  cmdline := bytesAt buf 64 BOOT_ARGS_SIZE
  id := (List.range 8).map (fun i => load32 host buf (576 + 4 * i))
  extra_cmdline := bytesAt buf 608 BOOT_EXTRA_ARGS_SIZE

/-- Modelled from the spec: `grub_memcmp (a, b, n)` (defined outside the
sources) is zero when the first `n` bytes agree, otherwise the difference of
the first two bytes that differ. -/
def grub_memcmp (a b : List UInt8) : Nat → Int
  | 0 => 0
  | n + 1 =>
    if a.headD 0 = b.headD 0 then grub_memcmp a.tail b.tail n
    else ((a.headD 0).toNat : Int) - ((b.headD 0).toNat : Int)

/-- `read_hdr (disk, hd)`. -/
def read_hdr (P : Platform) (disk : grub_disk) (w : World) :
    Except grub_err_t boot_img_hdr × World :=
  match grub_disk_read disk 0 sizeof_boot_img_hdr w with
  | (.error _, w1) =>
    let r := grub_error GRUB_ERR_BAD_FS w1
    (.error r.1, r.2)
  | (.ok buf, w1) =>
    let hd := hdr_overlay P.host buf
    if grub_memcmp hd.magic BOOT_MAGIC BOOT_MAGIC_SIZE ≠ 0 then
      let r := grub_error GRUB_ERR_BAD_FS w1
      (.error r.1, r.2)
    else if hd.unused0 ≠ 0 ∨ hd.unused1 ≠ 0 then
      let r := grub_error GRUB_ERR_BAD_FS w1
      (.error r.1, r.2)
    else
      (.ok { hd with
          kernel_size := grub_le_to_cpu32 P.host hd.kernel_size
          kernel_addr := grub_le_to_cpu32 P.host hd.kernel_addr
          ramdisk_size := grub_le_to_cpu32 P.host hd.ramdisk_size
          ramdisk_addr := grub_le_to_cpu32 P.host hd.ramdisk_addr
          second_size := grub_le_to_cpu32 P.host hd.second_size
          second_addr := grub_le_to_cpu32 P.host hd.second_addr
          tags_addr := grub_le_to_cpu32 P.host hd.tags_addr
          page_size := grub_le_to_cpu32 P.host hd.page_size
          id := hd.id.map (grub_le_to_cpu32 P.host) }, w1)

/-! ## Sub-image views -/

/-- Modelled from the spec: the members of `struct grub_file` (declared in
`include/grub/file.h`, which is not among the sources) that the loader fills in
or reads: `disk` is `device->disk`, `data` is the `grub_off_t` that the `data`
pointer refers to. -/
structure grub_file where
  name : String
  disk : grub_disk
  data : Nat
  size : Nat
  offset : Nat
  read_hook : Option Nat
  read_hook_data : Option Nat

/-- Modelled from the spec: conversion of a `grub_size_t` to `grub_ssize_t`
(both declared in `include/grub/types.h`, which is not among the sources), both
`bits` wide, in two's complement. -/
def to_ssize (bits n : Nat) : Int :=
  if n % 2 ^ bits < 2 ^ (bits - 1) then ((n % 2 ^ bits : Nat) : Int)
  else ((n % 2 ^ bits : Nat) : Int) - ((2 ^ bits : Nat) : Int)

/-- What a call of the `read` member leaves behind: the value returned, the
bytes stored in the caller's buffer, the file and the shared state. -/
structure ReadResult where
  ret : Int
  buf : List UInt8
  file : grub_file
  world : World

/-- `grub_android_bootimg_read (file, buf, len)`. -/
def grub_android_bootimg_read (P : Platform) (file : grub_file) (len : Nat) (w : World) :
    ReadResult :=
  let len_left := ((file.size + 2 ^ 64 - file.offset % 2 ^ 64) % 2 ^ 64) % 2 ^ P.size_bits
  let len := if len > len_left then len_left else len
  let begin_offset := file.data
  let actual_offset := (begin_offset + file.offset) % 2 ^ 64
  let disk1 := { file.disk with read_hook := file.read_hook, read_hook_data := file.read_hook_data }
  let r := grub_disk_read disk1 actual_offset len w
  let disk2 := { disk1 with read_hook := none }
  match r with
  | (.ok bytes, w1) =>
    { ret := to_ssize P.size_bits len, buf := bytes, file := { file with disk := disk2 },
      world := { w1 with grub_errno := GRUB_ERR_NONE } }
  | (.error e, w1) =>
    { ret := -1, buf := [], file := { file with disk := disk2 },
      world := { w1 with grub_errno := e } }

/-- `grub_android_bootimg_close (file)`: releases the stored offset only. -/
def grub_android_bootimg_close (_file : grub_file) (w : World) : grub_err_t × World :=
  (GRUB_ERR_NONE, grub_free true w)

/-- What a loader leaves behind: the value returned, the file stored through
`file` and the bytes stored in `cmdline` (`none` when nothing was stored), and
the shared state. -/
structure LoadResult where
  ret : grub_err_t
  file : Option grub_file
  cmdline : Option (List UInt8)
  world : World

/-- The statements after the label `err` of both loaders: `disk` is the handle
or null, `f`, `device` and `name` tell which of the three pointers are
non-null. -/
def load_err (disk : Option grub_disk) (f device name : Bool) (w : World) : LoadResult :=
  let ret := w.grub_errno
  let w1 := match disk with
    | some d => grub_disk_close d w
    | none => w
  let w2 := if f then grub_free true (grub_free name (grub_free device w1)) else w1
  { ret := ret, file := none, cmdline := none, world := w2 }

/-- `grub_android_bootimg_load_kernel (disk_path, file, cmdline)`. -/
def grub_android_bootimg_load_kernel (P : Platform) (disk_path : String) (w : World) :
    LoadResult :=
  match grub_disk_open P disk_path w with
  | (none, w1) => load_err none false false false w1
  | (some disk, w1) =>
    match read_hdr P disk w1 with
    | (.error _, w2) => load_err (some disk) false false false w2
    | (.ok hd, w2) =>
      match grub_malloc P w2 with
      | (false, w3) => load_err (some disk) false false false w3
      | (true, w3) =>
        match grub_malloc P w3 with
        | (false, w4) => load_err (some disk) true false false w4
        | (true, w4) =>
          match grub_malloc P w4 with
          | (false, w5) => load_err (some disk) true true false w5
          | (true, w5) =>
            match grub_malloc P w5 with
            | (false, w6) => load_err (some disk) true true true w6
            | (true, w6) =>
              { ret := GRUB_ERR_NONE
                file := some
                  { name := "kernel", disk := disk, data := hd.page_size % 2 ^ 64,
                    size := hd.kernel_size % 2 ^ 64, offset := 0, read_hook := none,
                    read_hook_data := none }
                cmdline := some (hd.cmdline.take BOOT_ARGS_SIZE)
                world := w6 }

/-- The value of `hd.kernel_size + hd.page_size - 1` in the ramdisk offset
computation. -/
def ramdisk_round32 (hd : boot_img_hdr) : Nat :=
  sub32 (add32 hd.kernel_size hd.page_size) 1

/-- The value of
`hd.page_size * (1 + (hd.kernel_size + hd.page_size - 1) / hd.page_size)`,
for a non-zero `hd.page_size`. -/
def ramdisk_begin32 (hd : boot_img_hdr) : Nat :=
  mul32 hd.page_size (add32 1 (ramdisk_round32 hd / hd.page_size))

/-- `grub_android_bootimg_load_initrd (disk_path, file)`; `none` is the
division by a zero `page_size`. -/
def grub_android_bootimg_load_initrd (P : Platform) (disk_path : String) (w : World) :
    Option LoadResult :=
  match grub_disk_open P disk_path w with
  | (none, w1) => some (load_err none false false false w1)
  | (some disk, w1) =>
    match read_hdr P disk w1 with
    | (.error _, w2) => some (load_err (some disk) false false false w2)
    | (.ok hd, w2) =>
      if hd.ramdisk_size = 0 then
        some (load_err (some disk) false false false (grub_error GRUB_ERR_FILE_NOT_FOUND w2).2)
      else
        match grub_malloc P w2 with
        | (false, w3) => some (load_err (some disk) false false false w3)
        | (true, w3) =>
          match grub_malloc P w3 with
          | (false, w4) => some (load_err (some disk) true false false w4)
          | (true, w4) =>
            match grub_malloc P w4 with
            | (false, w5) => some (load_err (some disk) true true false w5)
            | (true, w5) =>
              match grub_malloc P w5 with
              | (false, w6) => some (load_err (some disk) true true true w6)
              | (true, w6) =>
                if hd.page_size = 0 then none
                else
                  some
                    { ret := GRUB_ERR_NONE
                      file := some
                        { name := "ramdisk", disk := disk, data := ramdisk_begin32 hd % 2 ^ 64,
                          size := hd.ramdisk_size % 2 ^ 64, offset := 0, read_hook := none,
                          read_hook_data := none }
                      cmdline := none
                      world := w6 }

/-! ## The bootloader control block -/

/-- `sizeof (struct bootloader_message)`: `command`, `status`, `recovery`,
`stage`, `slot_suffix` and `reserved`, packed. -/
def sizeof_bootloader_message : Nat := 32 + 32 + 768 + 32 + 32 + 192

/-- Modelled from the spec: `grub_memchr (s, c, n)` (defined outside the
sources) gives the position of the first byte equal to `c` among the first `n`
bytes of `s`, `none` for the null pointer. -/
def grub_memchr (s : List UInt8) (c : UInt8) : Nat → Option Nat
  | 0 => none
  | n + 1 =>
    if s.headD 0 = c then some 0
    else (grub_memchr s.tail c n).map (fun i => i + 1)

/-- The C string that starts a buffer: its bytes before the first NUL. -/
def c_string (s : List UInt8) : List UInt8 :=
  s.takeWhile (fun b => b != 0)

/-- Modelled from the spec: `grub_env_set (name, val)` (defined outside the
sources) stores a copy of the C string `val` under `name`, replacing what was
there. -/
def grub_env_set (name : String) (val : List UInt8) (w : World) : World :=
  { w with env := fun k => if k = name then some (c_string val) else w.env k }

/-- `read_message (name)`. -/
def read_message (P : Platform) (name : String) (w : World) : grub_err_t × World :=
  match grub_disk_open P name w with
  | (some disk, w1) =>
    match grub_disk_read disk 0 sizeof_bootloader_message w1 with
    | (.ok msg, w2) =>
      let command := bytesAt msg 0 32
      if grub_memchr command 0 32 = none then
        let r := grub_error GRUB_ERR_BAD_FS w2
        (r.1, grub_disk_close disk r.2)
      else
        (GRUB_ERR_NONE, grub_disk_close disk (grub_env_set "android_bcb_command" command w2))
    | (.error err, w2) => (err, grub_disk_close disk w2)
  | (none, w1) => (w1.grub_errno, w1)

/-- Modelled from the spec: `grub_print_error ()` (defined outside the
sources) reports the pending error and clears it. -/
def grub_print_error (w : World) : World :=
  { w with grub_errno := GRUB_ERR_NONE }

/-- Modelled from the spec: `grub_strdup (s)` (defined outside the sources)
gives a copy of `s`, or the null pointer when the allocator refuses. -/
def grub_strdup (P : Platform) (s : String) (w : World) : Option String × World :=
  match grub_malloc P w with
  | (true, w1) => (some s, w1)
  | (false, w1) => (none, w1)

/-- `handle_write (var, val)`, the write hook of `android_bcb_disk`. -/
def handle_write (P : Platform) (val : String) (w : World) : Option String × World :=
  let r := read_message P val w
  let w1 := if r.1 ≠ GRUB_ERR_NONE then grub_print_error r.2 else r.2
  grub_strdup P val w1

/-! ## Reference values and example devices -/

/-- Little-endian value of the four device bytes at `off`. -/
def le32 (data : Nat → UInt8) (off : Nat) : Nat :=
  (data off).toNat + 256 * (data (off + 1)).toNat + 65536 * (data (off + 2)).toNat
    + 16777216 * (data (off + 3)).toNat

/-- The header a device starts with, every integer member decoded as
little-endian. -/
def device_hdr (data : Nat → UInt8) : boot_img_hdr where
  magic := (List.range 8).map data
  kernel_size := le32 data 8
  kernel_addr := le32 data 12
  ramdisk_size := le32 data 16
  ramdisk_addr := le32 data 20
  second_size := le32 data 24
  second_addr := le32 data 28
  tags_addr := le32 data 32
  page_size := le32 data 36
  unused0 := le32 data 40
  unused1 := le32 data 44
  name := (List.range 16).map (fun i => data (48 + i))
  cmdline := (List.range 512).map (fun i => data (64 + i))
  id := (List.range 8).map (fun i => le32 data (576 + 4 * i))
  extra_cmdline := (List.range 1024).map (fun i => data (608 + i))

/-- A device that holds `bytes` followed by zeros and serves every read. -/
def image_disk (name : String) (bytes : List UInt8) : grub_disk :=
  { name := name, data := fun i => bytes.getD i 0, read_err := fun _ _ => GRUB_ERR_NONE }

/-- A system whose only device is `d` and whose allocator never refuses. -/
def one_disk (host : ByteOrder) (bits : Nat) (d : grub_disk) : Platform :=
  { host := host, size_bits := bits,
    disk_open := fun n => if n = d.name then .ok d else .error GRUB_ERR_UNKNOWN_DEVICE,
    alloc_ok := fun _ => true }

/-- The state before anything happened. -/
def World.start : World :=
  { grub_errno := GRUB_ERR_NONE, env := fun _ => none, reads := [], closed := [], allocs := 0,
    frees := 0 }

/-- The four bytes of a 32-bit value, least significant byte first. -/
def le32_bytes (v : Nat) : List UInt8 :=
  [UInt8.ofNat (v % 256), UInt8.ofNat (v / 256 % 256), UInt8.ofNat (v / 65536 % 256),
    UInt8.ofNat (v / 16777216 % 256)]

/-- The on-disk form of a header: the members in declaration order, every
integer member little-endian. -/
def encode_hdr (hd : boot_img_hdr) : List UInt8 :=
  hd.magic ++ (le32_bytes hd.kernel_size ++ (le32_bytes hd.kernel_addr
    ++ (le32_bytes hd.ramdisk_size ++ (le32_bytes hd.ramdisk_addr
    ++ (le32_bytes hd.second_size ++ (le32_bytes hd.second_addr
    ++ (le32_bytes hd.tags_addr ++ (le32_bytes hd.page_size
    ++ (le32_bytes hd.unused0 ++ (le32_bytes hd.unused1
    ++ (hd.name ++ (hd.cmdline ++ ((hd.id.map le32_bytes).flatten ++ hd.extra_cmdline)))))))))))))

/-- A header with the given sizes, the magic, zero `unused` words and empty
strings. -/
def sample_hdr (kernel_size ramdisk_size page_size : Nat) : boot_img_hdr :=
  { magic := BOOT_MAGIC, kernel_size := kernel_size, kernel_addr := 0x10008000,
    ramdisk_size := ramdisk_size, ramdisk_addr := 0x11000000, second_size := 0,
    second_addr := 0x10f00000, tags_addr := 0x10000100, page_size := page_size,
    unused0 := 0, unused1 := 0, name := List.replicate 16 0, cmdline := List.replicate 512 0,
    id := List.replicate 8 0, extra_cmdline := List.replicate 1024 0 }

/-- A boot image with 2048-byte pages, a 4097-byte kernel and a 300-byte
ramdisk. -/
def small_image : grub_disk :=
  image_disk "hd0,gpt2" (encode_hdr (sample_hdr 4097 300 2048))

/-- A boot image whose header declares pages of `2 ^ 31` bytes and a one-byte
kernel. -/
def huge_page_image : grub_disk :=
  image_disk "hd0,gpt2" (encode_hdr (sample_hdr 1 300 2147483648))

/-- A boot image whose header declares a kernel of `2 ^ 32 - 1` bytes and
two-byte pages. -/
def huge_kernel_image : grub_disk :=
  image_disk "hd0,gpt2" (encode_hdr (sample_hdr 4294967295 300 2))

/-- A boot image whose header declares no ramdisk. -/
def no_ramdisk_image : grub_disk :=
  image_disk "hd0,gpt3" (encode_hdr (sample_hdr 4097 0 2048))

/-- A device full of zeros. -/
def blank_disk : grub_disk :=
  image_disk "hd1" []

/-- A boot image whose second `unused` word is 1, all else as in
`small_image`. -/
def reserved_word_image : grub_disk :=
  image_disk "hd0,gpt4" (encode_hdr { sample_hdr 4097 300 2048 with unused1 := 1 })

/-- The kernel view of `small_image` after 4000 bytes were consumed. -/
def kernel_view_at_4000 : grub_file :=
  { name := "kernel", disk := small_image, data := 2048, size := 4097, offset := 4000,
    read_hook := none, read_hook_data := none }

/-- A control block whose command is `boot-recovery`. -/
def recovery_bcb : grub_disk :=
  image_disk "hd0,gpt5" [0x62, 0x6F, 0x6F, 0x74, 0x2D, 0x72, 0x65, 0x63, 0x6F, 0x76, 0x65, 0x72, 0x79]

/-- A device that holds the byte `0x41` everywhere and serves every read. -/
def filled_disk : grub_disk :=
  { name := "hd2", data := fun _ => 0x41, read_err := fun _ _ => GRUB_ERR_NONE }

/-- A state in which a command was published earlier. -/
def World.with_command : World :=
  grub_env_set "android_bcb_command" [0x6F, 0x6C, 0x64] World.start

/-- A boot image whose header declares pages of zero bytes, all else as in
`small_image`. -/
def zero_page_image : grub_disk :=
  image_disk "hd0,gpt6" (encode_hdr (sample_hdr 4097 300 0))

/-- A device that refuses every read with `GRUB_ERR_READ_ERROR`. -/
def broken_disk : grub_disk :=
  { name := "hd3", data := fun _ => 0, read_err := fun _ _ => GRUB_ERR_READ_ERROR }

/-- The system `P` with an allocator that refuses request number `k` and
serves all others. -/
def refuse_request (P : Platform) (k : Nat) : Platform :=
  { P with alloc_ok := fun n => n != k }

/-- A boot image whose command line starts with `quiet`, a NUL and `x`. -/
def cmdline_image : grub_disk :=
  image_disk "hd0,gpt7" (encode_hdr { sample_hdr 4097 300 2048 with
    cmdline := [0x71, 0x75, 0x69, 0x65, 0x74, 0x00, 0x78] ++ List.replicate 505 0 })

/-- The kernel view of a device that refuses every read. -/
def broken_view : grub_file :=
  { name := "kernel", disk := broken_disk, data := 2048, size := 4097, offset := 0,
    read_hook := none, read_hook_data := none }

/-! ## Properties -/

theorem getD_map_range (f : Nat → UInt8) (n i : Nat) (h : i < n) :
    ((List.range n).map f).getD i 0 = f i := by
  rw [List.getD_eq_getElem?_getD]
  simp [List.getElem?_map, List.getElem?_range h]

theorem byteAt_map_range (f : Nat → UInt8) (n i : Nat) (h : i < n) :
    byteAt ((List.range n).map f) i = (f i).toNat := by
  unfold byteAt
  rw [getD_map_range f n i h]

theorem bytesAt_map_range (f : Nat → UInt8) (n off m : Nat) (h : off + m ≤ n) :
    bytesAt ((List.range n).map f) off m = (List.range m).map (fun i => f (off + i)) := by
  unfold bytesAt
  apply List.map_congr_left
  intro i hi
  rw [List.mem_range] at hi
  exact getD_map_range f n (off + i) (by omega)

theorem load32_little (f : Nat → UInt8) (n off : Nat) (h : off + 4 ≤ n) :
    load32 .little ((List.range n).map f) off = le32 f off := by
  simp only [load32, le32]
  rw [byteAt_map_range f n off (by omega), byteAt_map_range f n (off + 1) (by omega),
    byteAt_map_range f n (off + 2) (by omega), byteAt_map_range f n (off + 3) (by omega)]
  omega

theorem le_to_cpu32_load32 (host : ByteOrder) (f : Nat → UInt8) (n off : Nat) (h : off + 4 ≤ n) :
    grub_le_to_cpu32 host (load32 host ((List.range n).map f) off) = le32 f off := by
  cases host
  · simpa [grub_le_to_cpu32] using load32_little f n off h
  · simp only [grub_le_to_cpu32, grub_swap_bytes32, load32, le32]
    rw [byteAt_map_range f n off (by omega), byteAt_map_range f n (off + 1) (by omega),
      byteAt_map_range f n (off + 2) (by omega), byteAt_map_range f n (off + 3) (by omega)]
    have h0 := (f off).toNat_lt
    have h1 := (f (off + 1)).toNat_lt
    have h2 := (f (off + 2)).toNat_lt
    have h3 := (f (off + 3)).toNat_lt
    omega

theorem load32_eq_zero_iff (host : ByteOrder) (f : Nat → UInt8) (n off : Nat) (h : off + 4 ≤ n) :
    load32 host ((List.range n).map f) off = 0 ↔ le32 f off = 0 := by
  cases host
  · rw [load32_little f n off h]
  · simp only [load32, le32]
    rw [byteAt_map_range f n off (by omega), byteAt_map_range f n (off + 1) (by omega),
      byteAt_map_range f n (off + 2) (by omega), byteAt_map_range f n (off + 3) (by omega)]
    omega

theorem le32_lt (f : Nat → UInt8) (off : Nat) : le32 f off < 2 ^ 32 := by
  have h0 := (f off).toNat_lt
  have h1 := (f (off + 1)).toNat_lt
  have h2 := (f (off + 2)).toNat_lt
  have h3 := (f (off + 3)).toNat_lt
  simp only [le32]
  omega

theorem grub_memcmp_eq_zero_iff (n : Nat) : ∀ a b : List UInt8, a.length = n → b.length = n →
    (grub_memcmp a b n = 0 ↔ a = b) := by
  induction n with
  | zero =>
    intro a b ha hb
    simp [grub_memcmp, List.length_eq_zero.mp ha, List.length_eq_zero.mp hb]
  | succ n ih =>
    intro a b ha hb
    obtain ⟨x, a, rfl⟩ := List.exists_cons_of_length_eq_add_one ha
    obtain ⟨y, b, rfl⟩ := List.exists_cons_of_length_eq_add_one hb
    simp only [List.length_cons, Nat.add_right_cancel_iff] at ha hb
    by_cases hxy : x = y
    · subst hxy
      simp [grub_memcmp, ih a b ha hb]
    · have hne : x.toNat ≠ y.toNat := fun h => hxy (UInt8.ext_iff.mpr h)
      simp only [grub_memcmp, List.headD_cons, hxy, if_false, List.cons.injEq, false_and, iff_false]
      omega

theorem grub_disk_read_ok (d : grub_disk) (n : Nat) (w : World)
    (h : d.read_err 0 n = GRUB_ERR_NONE) :
    grub_disk_read d 0 n w
      = (.ok ((List.range n).map d.data), { w with reads := (d.name, 0, n) :: w.reads }) := by
  simp [grub_disk_read, h]

theorem magic_test (f : Nat → UInt8) :
    (grub_memcmp (bytesAt ((List.range sizeof_boot_img_hdr).map f) 0 BOOT_MAGIC_SIZE) BOOT_MAGIC
      BOOT_MAGIC_SIZE = 0) ↔ (List.range 8).map f = BOOT_MAGIC := by
  rw [bytesAt_map_range f sizeof_boot_img_hdr 0 BOOT_MAGIC_SIZE (by decide)]
  rw [grub_memcmp_eq_zero_iff BOOT_MAGIC_SIZE _ _ (by simp [BOOT_MAGIC_SIZE]) (by decide)]
  simp [BOOT_MAGIC_SIZE]

/-- Every way `read_hdr` rejects: `GRUB_ERR_BAD_FS` is returned and recorded. -/
theorem read_hdr_reject (P : Platform) (d : grub_disk) (w : World)
    (h : d.read_err 0 sizeof_boot_img_hdr ≠ GRUB_ERR_NONE ∨ (List.range 8).map d.data ≠ BOOT_MAGIC
      ∨ le32 d.data 40 ≠ 0 ∨ le32 d.data 44 ≠ 0) :
    read_hdr P d w = (.error GRUB_ERR_BAD_FS,
      { w with grub_errno := GRUB_ERR_BAD_FS,
               reads := (d.name, 0, sizeof_boot_img_hdr) :: w.reads }) := by
  by_cases hread : d.read_err 0 sizeof_boot_img_hdr = GRUB_ERR_NONE
  · simp only [read_hdr, grub_disk_read_ok d _ w hread, grub_error]
    by_cases hm : (List.range 8).map d.data = BOOT_MAGIC
    · have hu : le32 d.data 40 ≠ 0 ∨ le32 d.data 44 ≠ 0 := by tauto
      have h40 := load32_eq_zero_iff P.host d.data sizeof_boot_img_hdr 40 (by decide)
      have h44 := load32_eq_zero_iff P.host d.data sizeof_boot_img_hdr 44 (by decide)
      have hu2 : (hdr_overlay P.host ((List.range sizeof_boot_img_hdr).map d.data)).unused0 ≠ 0 ∨
          (hdr_overlay P.host ((List.range sizeof_boot_img_hdr).map d.data)).unused1 ≠ 0 := by
        simp only [hdr_overlay]
        rcases hu with hu | hu
        · exact Or.inl (fun e => hu (h40.mp e))
        · exact Or.inr (fun e => hu (h44.mp e))
      rw [if_neg (by simpa [hdr_overlay] using (magic_test d.data).mpr hm), if_pos hu2]
    · rw [if_pos (by simpa [hdr_overlay] using fun h0 => hm ((magic_test d.data).mp h0))]
  · simp only [read_hdr, grub_disk_read, if_neg hread, grub_error]

/-- How `read_hdr` accepts: the header handed back is the little-endian reading
of the device bytes, on either host, and nothing but the read request is
recorded in the shared state. -/
theorem read_hdr_accept (P : Platform) (d : grub_disk) (w : World)
    (hread : d.read_err 0 sizeof_boot_img_hdr = GRUB_ERR_NONE)
    (hmagic : (List.range 8).map d.data = BOOT_MAGIC)
    (hu0 : le32 d.data 40 = 0) (hu1 : le32 d.data 44 = 0) :
    read_hdr P d w = (.ok (device_hdr d.data),
      { w with reads := (d.name, 0, sizeof_boot_img_hdr) :: w.reads }) := by
  have h40 := (load32_eq_zero_iff P.host d.data sizeof_boot_img_hdr 40 (by decide)).mpr hu0
  have h44 := (load32_eq_zero_iff P.host d.data sizeof_boot_img_hdr 44 (by decide)).mpr hu1
  have hu2 : ¬ ((hdr_overlay P.host ((List.range sizeof_boot_img_hdr).map d.data)).unused0 ≠ 0 ∨
      (hdr_overlay P.host ((List.range sizeof_boot_img_hdr).map d.data)).unused1 ≠ 0) := by
    simp only [hdr_overlay]
    rintro (hu | hu)
    · exact hu h40
    · exact hu h44
  simp only [read_hdr, grub_disk_read_ok d _ w hread]
  rw [if_neg (by simpa [hdr_overlay] using (magic_test d.data).mpr hmagic), if_neg hu2]
  have hid : ((List.range 8).map (fun i =>
        load32 P.host ((List.range sizeof_boot_img_hdr).map d.data) (576 + 4 * i))).map
        (grub_le_to_cpu32 P.host) = (List.range 8).map (fun i => le32 d.data (576 + 4 * i)) := by
    rw [List.map_map]
    apply List.map_congr_left
    intro i hi
    rw [List.mem_range] at hi
    exact le_to_cpu32_load32 P.host d.data sizeof_boot_img_hdr (576 + 4 * i)
      (by simp only [sizeof_boot_img_hdr, BOOT_MAGIC_SIZE, BOOT_NAME_SIZE, BOOT_ARGS_SIZE,
        BOOT_EXTRA_ARGS_SIZE]; omega)
  simp only [hdr_overlay, device_hdr, hid, h40, h44, hu0, hu1,
    le_to_cpu32_load32 P.host d.data sizeof_boot_img_hdr _ (by decide : 8 + 4 ≤ sizeof_boot_img_hdr),
    le_to_cpu32_load32 P.host d.data sizeof_boot_img_hdr _ (by decide : 12 + 4 ≤ sizeof_boot_img_hdr),
    le_to_cpu32_load32 P.host d.data sizeof_boot_img_hdr _ (by decide : 16 + 4 ≤ sizeof_boot_img_hdr),
    le_to_cpu32_load32 P.host d.data sizeof_boot_img_hdr _ (by decide : 20 + 4 ≤ sizeof_boot_img_hdr),
    le_to_cpu32_load32 P.host d.data sizeof_boot_img_hdr _ (by decide : 24 + 4 ≤ sizeof_boot_img_hdr),
    le_to_cpu32_load32 P.host d.data sizeof_boot_img_hdr _ (by decide : 28 + 4 ≤ sizeof_boot_img_hdr),
    le_to_cpu32_load32 P.host d.data sizeof_boot_img_hdr _ (by decide : 32 + 4 ≤ sizeof_boot_img_hdr),
    le_to_cpu32_load32 P.host d.data sizeof_boot_img_hdr _ (by decide : 36 + 4 ≤ sizeof_boot_img_hdr),
    bytesAt_map_range d.data sizeof_boot_img_hdr 0 BOOT_MAGIC_SIZE (by decide),
    bytesAt_map_range d.data sizeof_boot_img_hdr 48 BOOT_NAME_SIZE (by decide),
    bytesAt_map_range d.data sizeof_boot_img_hdr 64 BOOT_ARGS_SIZE (by decide),
    bytesAt_map_range d.data sizeof_boot_img_hdr 608 BOOT_EXTRA_ARGS_SIZE (by decide)]
  simp [BOOT_MAGIC_SIZE, BOOT_NAME_SIZE, BOOT_ARGS_SIZE, BOOT_EXTRA_ARGS_SIZE]

/-- Rounding up by adding `p - 1` before dividing is the ceiling of the exact
quotient. -/
theorem ceil_div_eq (k p : Nat) (hp : 0 < p) : ⌈(k : ℚ) / (p : ℚ)⌉₊ = (k + p - 1) / p := by
  have hpq : (0 : ℚ) < (p : ℚ) := by exact_mod_cast hp
  have hdm := Nat.div_add_mod (k + p - 1) p
  have hmod := Nat.mod_lt (k + p - 1) hp
  generalize hc : (k + p - 1) / p = c at hdm
  generalize (k + p - 1) % p = r at hdm hmod
  apply le_antisymm
  · rw [Nat.ceil_le, div_le_iff₀ hpq]
    have : k ≤ c * p := by
      rw [Nat.mul_comm]; omega
    exact_mod_cast this
  · rcases Nat.eq_zero_or_pos c with h0 | hpos
    · omega
    · obtain ⟨c', rfl⟩ : ∃ c', c = c' + 1 := ⟨c - 1, by omega⟩
      have h1 : c' * p < k := by
        have : p * (c' + 1) = p * c' + p := by ring
        rw [Nat.mul_comm]; omega
      have h2 : (c' : ℚ) < (k : ℚ) / (p : ℚ) := by
        rw [lt_div_iff₀ hpq]
        exact_mod_cast h1
      exact Nat.succ_le_of_lt (Nat.lt_ceil.mpr h2)

/-- When the exact product fits 32 bits, no step of the ramdisk offset
computation wraps. -/
theorem ramdisk_offset_exact (hd : boot_img_hdr) (hp : 0 < hd.page_size)
    (hfit : hd.page_size * (1 + (hd.kernel_size + hd.page_size - 1) / hd.page_size) < 2 ^ 32) :
    ramdisk_round32 hd = hd.kernel_size + hd.page_size - 1 ∧
    ramdisk_begin32 hd
      = hd.page_size * (1 + (hd.kernel_size + hd.page_size - 1) / hd.page_size) := by
  have hdm := Nat.div_add_mod (hd.kernel_size + hd.page_size - 1) hd.page_size
  have hmod := Nat.mod_lt (hd.kernel_size + hd.page_size - 1) hp
  have hmul : hd.page_size * (1 + (hd.kernel_size + hd.page_size - 1) / hd.page_size)
      = hd.page_size + hd.page_size * ((hd.kernel_size + hd.page_size - 1) / hd.page_size) := by
    ring
  have hc : 1 + (hd.kernel_size + hd.page_size - 1) / hd.page_size
      ≤ hd.page_size * (1 + (hd.kernel_size + hd.page_size - 1) / hd.page_size) :=
    Nat.le_mul_of_pos_left _ hp
  have hround : ramdisk_round32 hd = hd.kernel_size + hd.page_size - 1 := by
    simp only [ramdisk_round32, sub32, add32]
    omega
  refine ⟨hround, ?_⟩
  simp only [ramdisk_begin32, hround, mul32, add32]
  rw [Nat.mod_eq_of_lt (lt_of_le_of_lt hc hfit), Nat.mod_eq_of_lt hfit]

/-- The error exit of both loaders taken before anything was allocated. -/
theorem load_err_early (d : grub_disk) (w : World) :
    load_err (some d) false false false w
      = { ret := w.grub_errno, file := none, cmdline := none,
          world := { w with closed := d.name :: w.closed } } := by
  simp [load_err, grub_disk_close]

/-- The run of `grub_android_bootimg_load_initrd` on an accepted header that
declares a ramdisk, when the allocator serves its four requests. -/
theorem load_initrd_accept (P : Platform) (path : String) (w : World) (d : grub_disk)
    (hopen : P.disk_open path = .ok d)
    (hread : d.read_err 0 sizeof_boot_img_hdr = GRUB_ERR_NONE)
    (hmagic : (List.range 8).map d.data = BOOT_MAGIC)
    (hu0 : le32 d.data 40 = 0) (hu1 : le32 d.data 44 = 0)
    (hrd : le32 d.data 16 ≠ 0)
    (halloc : ∀ i, i < 4 → P.alloc_ok (w.allocs + i) = true) :
    grub_android_bootimg_load_initrd P path w =
      if le32 d.data 36 = 0 then none
      else some
        { ret := GRUB_ERR_NONE
          file := some
            { name := "ramdisk", disk := d, data := ramdisk_begin32 (device_hdr d.data),
              size := le32 d.data 16, offset := 0, read_hook := none, read_hook_data := none }
          cmdline := none
          world := { w with reads := (d.name, 0, sizeof_boot_img_hdr) :: w.reads,
                            allocs := w.allocs + 4 } } := by
  have h0 := halloc 0 (by omega)
  have h1 := halloc 1 (by omega)
  have h2 := halloc 2 (by omega)
  have h3 := halloc 3 (by omega)
  have hb : ramdisk_begin32 (device_hdr d.data) % 2 ^ 64 = ramdisk_begin32 (device_hdr d.data) := by
    apply Nat.mod_eq_of_lt
    have : ramdisk_begin32 (device_hdr d.data) < 2 ^ 32 := Nat.mod_lt _ (by norm_num)
    omega
  have hs : le32 d.data 16 % 2 ^ 64 = le32 d.data 16 := by
    apply Nat.mod_eq_of_lt
    have := le32_lt d.data 16
    omega
  simp only [Nat.add_zero] at h0
  simp only [grub_android_bootimg_load_initrd, grub_disk_open, hopen,
    read_hdr_accept P d w hread hmagic hu0 hu1, grub_malloc, h0, h1, h2, h3, if_true]
  simp only [device_hdr, hrd, if_false, hs]
  simp only [Nat.add_assoc, h1, h2, h3, if_true]
  by_cases hp : le32 d.data 36 = 0
  · simp only [hp, if_true]
  · simp only [hp, if_false]
    have hb2 := hb
    simp only [device_hdr] at hb2
    rw [hb2]

/-- What an accepting run of `read_hdr` tells about the device. -/
theorem read_hdr_ok_inv (P : Platform) (d : grub_disk) (w w' : World) (hd : boot_img_hdr)
    (h : read_hdr P d w = (.ok hd, w')) :
    hd = device_hdr d.data ∧ w' = { w with reads := (d.name, 0, sizeof_boot_img_hdr) :: w.reads } ∧
      d.read_err 0 sizeof_boot_img_hdr = GRUB_ERR_NONE ∧
      (List.range 8).map d.data = BOOT_MAGIC ∧ le32 d.data 40 = 0 ∧ le32 d.data 44 = 0 := by
  by_cases hrej : d.read_err 0 sizeof_boot_img_hdr ≠ GRUB_ERR_NONE
      ∨ (List.range 8).map d.data ≠ BOOT_MAGIC ∨ le32 d.data 40 ≠ 0 ∨ le32 d.data 44 ≠ 0
  · rw [read_hdr_reject P d w hrej] at h
    simp at h
  · simp only [not_or, not_not] at hrej
    obtain ⟨h1, h2, h3, h4⟩ := hrej
    rw [read_hdr_accept P d w h1 h2 h3 h4] at h
    simp only [Prod.mk.injEq, Except.ok.injEq] at h
    exact ⟨h.1.symm, h.2.symm, h1, h2, h3, h4⟩

/-- The run of `grub_android_bootimg_load_kernel` on an accepted header, when
the allocator serves its four requests. -/
theorem load_kernel_accept (P : Platform) (path : String) (w : World) (d : grub_disk)
    (hopen : P.disk_open path = .ok d)
    (hread : d.read_err 0 sizeof_boot_img_hdr = GRUB_ERR_NONE)
    (hmagic : (List.range 8).map d.data = BOOT_MAGIC)
    (hu0 : le32 d.data 40 = 0) (hu1 : le32 d.data 44 = 0)
    (halloc : ∀ i, i < 4 → P.alloc_ok (w.allocs + i) = true) :
    grub_android_bootimg_load_kernel P path w =
      { ret := GRUB_ERR_NONE
        file := some
          { name := "kernel", disk := d, data := le32 d.data 36, size := le32 d.data 8,
            offset := 0, read_hook := none, read_hook_data := none }
        cmdline := some ((List.range 512).map (fun i => d.data (64 + i)))
        world := { w with reads := (d.name, 0, sizeof_boot_img_hdr) :: w.reads,
                          allocs := w.allocs + 4 } } := by
  have h0 := halloc 0 (by omega)
  have h1 := halloc 1 (by omega)
  have h2 := halloc 2 (by omega)
  have h3 := halloc 3 (by omega)
  have hp : le32 d.data 36 % 2 ^ 64 = le32 d.data 36 := by
    apply Nat.mod_eq_of_lt
    have := le32_lt d.data 36
    omega
  have hk : le32 d.data 8 % 2 ^ 64 = le32 d.data 8 := by
    apply Nat.mod_eq_of_lt
    have := le32_lt d.data 8
    omega
  have hc : ((List.range 512).map (fun i => d.data (64 + i))).take BOOT_ARGS_SIZE
      = (List.range 512).map (fun i => d.data (64 + i)) :=
    List.take_of_length_le (by simp [BOOT_ARGS_SIZE])
  simp only [Nat.add_zero] at h0
  simp only [grub_android_bootimg_load_kernel, grub_disk_open, hopen,
    read_hdr_accept P d w hread hmagic hu0 hu1, grub_malloc, h0, h1, h2, h3, if_true]
  simp only [device_hdr, hp, hk, hc]

/-- The run of `grub_android_bootimg_load_kernel` on a rejected header. -/
theorem load_kernel_reject (P : Platform) (path : String) (w : World) (d : grub_disk)
    (hopen : P.disk_open path = .ok d)
    (h : d.read_err 0 sizeof_boot_img_hdr ≠ GRUB_ERR_NONE ∨ (List.range 8).map d.data ≠ BOOT_MAGIC
      ∨ le32 d.data 40 ≠ 0 ∨ le32 d.data 44 ≠ 0) :
    grub_android_bootimg_load_kernel P path w =
      { ret := GRUB_ERR_BAD_FS, file := none, cmdline := none,
        world := { w with grub_errno := GRUB_ERR_BAD_FS,
                          reads := (d.name, 0, sizeof_boot_img_hdr) :: w.reads,
                          closed := d.name :: w.closed } } := by
  simp only [grub_android_bootimg_load_kernel, grub_disk_open, hopen, read_hdr_reject P d w h,
    load_err_early]

/-- The run of `grub_android_bootimg_load_initrd` on a rejected header. -/
theorem load_initrd_reject (P : Platform) (path : String) (w : World) (d : grub_disk)
    (hopen : P.disk_open path = .ok d)
    (h : d.read_err 0 sizeof_boot_img_hdr ≠ GRUB_ERR_NONE ∨ (List.range 8).map d.data ≠ BOOT_MAGIC
      ∨ le32 d.data 40 ≠ 0 ∨ le32 d.data 44 ≠ 0) :
    grub_android_bootimg_load_initrd P path w = some
      { ret := GRUB_ERR_BAD_FS, file := none, cmdline := none,
        world := { w with grub_errno := GRUB_ERR_BAD_FS,
                          reads := (d.name, 0, sizeof_boot_img_hdr) :: w.reads,
                          closed := d.name :: w.closed } } := by
  simp only [grub_android_bootimg_load_initrd, grub_disk_open, hopen, read_hdr_reject P d w h,
    load_err_early]

/-- The run of `grub_android_bootimg_load_initrd` on an accepted header that
declares no ramdisk. -/
theorem load_initrd_no_ramdisk (P : Platform) (path : String) (w : World) (d : grub_disk)
    (hopen : P.disk_open path = .ok d)
    (hread : d.read_err 0 sizeof_boot_img_hdr = GRUB_ERR_NONE)
    (hmagic : (List.range 8).map d.data = BOOT_MAGIC)
    (hu0 : le32 d.data 40 = 0) (hu1 : le32 d.data 44 = 0)
    (hrd : le32 d.data 16 = 0) :
    grub_android_bootimg_load_initrd P path w = some
      { ret := GRUB_ERR_FILE_NOT_FOUND, file := none, cmdline := none,
        world := { w with grub_errno := GRUB_ERR_FILE_NOT_FOUND,
                          reads := (d.name, 0, sizeof_boot_img_hdr) :: w.reads,
                          closed := d.name :: w.closed } } := by
  simp only [grub_android_bootimg_load_initrd, grub_disk_open, hopen,
    read_hdr_accept P d w hread hmagic hu0 hu1]
  simp [device_hdr, hrd, grub_error, load_err, grub_disk_close]

theorem getD_drop (l : List UInt8) (off i : Nat) :
    l.getD (off + i) 0 = (l.drop off).getD i 0 := by
  simp [List.getD_eq_getElem?_getD, List.getElem?_drop]

/-- Moving past one member of an encoded structure. -/
theorem drop_step (l a rest : List UInt8) (off n : Nat) (h : l.drop off = a ++ rest)
    (ha : a.length = n) : l.drop (off + n) = rest := by
  rw [← List.drop_drop, h, List.drop_left' ha]

/-- Reading back a byte-array member. -/
theorem bytes_of_drop (l a rest : List UInt8) (off n : Nat) (h : l.drop off = a ++ rest)
    (ha : a.length = n) : (List.range n).map (fun i => l.getD (off + i) 0) = a := by
  apply List.ext_getElem
  · simp [ha]
  · intro i h1 h2
    simp only [List.length_map, List.length_range] at h1
    simp only [List.getElem_map, List.getElem_range]
    rw [getD_drop, h, List.getD_eq_getElem?_getD, List.getElem?_append_left (by omega),
      List.getElem?_eq_getElem h2]
    rfl

/-- Reading back a 32-bit member stored least significant byte first. -/
theorem le32_of_drop (l rest : List UInt8) (off v : Nat) (hv : v < 2 ^ 32)
    (h : l.drop off = le32_bytes v ++ rest) : le32 (fun i => l.getD i 0) off = v := by
  have e0 : l.getD off 0 = UInt8.ofNat (v % 256) := by
    have := getD_drop l off 0
    rw [h] at this
    simpa [le32_bytes] using this
  have e1 : l.getD (off + 1) 0 = UInt8.ofNat (v / 256 % 256) := by
    rw [getD_drop, h]
    simp [le32_bytes]
  have e2 : l.getD (off + 2) 0 = UInt8.ofNat (v / 65536 % 256) := by
    rw [getD_drop, h]
    simp [le32_bytes]
  have e3 : l.getD (off + 3) 0 = UInt8.ofNat (v / 16777216 % 256) := by
    rw [getD_drop, h]
    simp [le32_bytes]
  have t : ∀ n, (UInt8.ofNat (n % 256)).toNat = n % 256 := by
    intro n
    show (n % 256) % 256 = n % 256
    omega
  simp only [le32, e0, e1, e2, e3, t]
  omega

/-- Reading back an array of 32-bit members. -/
theorem ids_of_drop : ∀ (ids : List Nat) (l rest : List UInt8) (off : Nat),
    (∀ x ∈ ids, x < 2 ^ 32) → l.drop off = (ids.map le32_bytes).flatten ++ rest →
    (List.range ids.length).map (fun i => le32 (fun j => l.getD j 0) (off + 4 * i)) = ids := by
  intro ids
  induction ids with
  | nil => intro l rest off _ _; rfl
  | cons v ids ih =>
    intro l rest off hb h
    rw [List.map_cons, List.flatten_cons, List.append_assoc] at h
    have hv := le32_of_drop l _ off v (hb v (List.mem_cons_self v ids)) h
    have hrest := drop_step l _ _ off 4 h (by simp [le32_bytes])
    have := ih l rest (off + 4) (fun x hx => hb x (List.mem_cons_of_mem v hx)) hrest
    rw [List.length_cons, List.range_succ_eq_map, List.map_cons, List.map_map]
    simp only [Nat.mul_zero, Nat.add_zero, hv, List.cons.injEq, true_and]
    refine Eq.trans ?_ this
    apply List.map_congr_left
    intro i _
    simp only [Function.comp, Nat.succ_eq_add_one]
    congr 1
    omega

theorem length_flatten_le32_bytes (ids : List Nat) :
    ((ids.map le32_bytes).flatten).length = 4 * ids.length := by
  induction ids with
  | nil => rfl
  | cons v ids ih =>
    rw [List.map_cons, List.flatten_cons, List.length_append, ih, List.length_cons]
    simp only [le32_bytes, List.length_cons, List.length_nil]
    omega

/-- Decoding the encoded form of a well-formed header gives the header back. -/
theorem device_hdr_encode (hd : boot_img_hdr)
    (hmagic : hd.magic = BOOT_MAGIC)
    (hks : hd.kernel_size < 2 ^ 32) (hka : hd.kernel_addr < 2 ^ 32)
    (hrs : hd.ramdisk_size < 2 ^ 32) (hra : hd.ramdisk_addr < 2 ^ 32)
    (hss : hd.second_size < 2 ^ 32) (hsa : hd.second_addr < 2 ^ 32)
    (hta : hd.tags_addr < 2 ^ 32) (hps : hd.page_size < 2 ^ 32)
    (hu0 : hd.unused0 < 2 ^ 32) (hu1 : hd.unused1 < 2 ^ 32)
    (hname : hd.name.length = 16) (hcmd : hd.cmdline.length = 512)
    (hid : hd.id.length = 8) (hidv : ∀ x ∈ hd.id, x < 2 ^ 32)
    (hextra : hd.extra_cmdline.length = 1024) :
    (encode_hdr hd).length = 1632 ∧ device_hdr (fun i => (encode_hdr hd).getD i 0) = hd := by
  obtain ⟨magic, ks, ka, rs, ra, ss, sa, ta, ps, u0, u1, name, cmdline, id, extra⟩ := hd
  simp only at hmagic hks hka hrs hra hss hsa hta hps hu0 hu1 hname hcmd hid hidv hextra
  have hml : magic.length = 8 := by rw [hmagic]; rfl
  have hfl := length_flatten_le32_bytes id
  constructor
  · have h4 : ∀ v, (le32_bytes v).length = 4 := fun _ => rfl
    simp only [encode_hdr, List.length_append, hml, hname, hcmd, hfl, hid, hextra, h4]
  generalize hl : encode_hdr ⟨magic, ks, ka, rs, ra, ss, sa, ta, ps, u0, u1, name, cmdline, id,
    extra⟩ = l
  have d0 : l.drop 0 = magic ++ (le32_bytes ks ++ (le32_bytes ka ++ (le32_bytes rs
      ++ (le32_bytes ra ++ (le32_bytes ss ++ (le32_bytes sa ++ (le32_bytes ta
      ++ (le32_bytes ps ++ (le32_bytes u0 ++ (le32_bytes u1 ++ (name ++ (cmdline
      ++ ((id.map le32_bytes).flatten ++ extra))))))))))))) := by
    rw [← hl]; rfl
  have d8 := drop_step l _ _ 0 8 d0 hml
  have d12 := drop_step l _ _ 8 4 d8 rfl
  have d16 := drop_step l _ _ 12 4 d12 rfl
  have d20 := drop_step l _ _ 16 4 d16 rfl
  have d24 := drop_step l _ _ 20 4 d20 rfl
  have d28 := drop_step l _ _ 24 4 d24 rfl
  have d32 := drop_step l _ _ 28 4 d28 rfl
  have d36 := drop_step l _ _ 32 4 d32 rfl
  have d40 := drop_step l _ _ 36 4 d36 rfl
  have d44 := drop_step l _ _ 40 4 d40 rfl
  have d48 := drop_step l _ _ 44 4 d44 rfl
  have d64 := drop_step l _ _ 48 16 d48 hname
  have d576 := drop_step l _ _ 64 512 d64 hcmd
  have d608 : l.drop 608 = extra := drop_step l _ _ 576 32 d576 (by rw [hfl, hid])
  have d608b : l.drop 608 = extra ++ [] := by rw [d608, List.append_nil]
  have e0 := bytes_of_drop l _ _ 0 8 d0 hml
  simp only [Nat.zero_add] at e0
  have eid := ids_of_drop id l _ 576 hidv d576
  rw [hid] at eid
  simp only [device_hdr, e0, eid, le32_of_drop l _ 8 ks hks d8, le32_of_drop l _ 12 ka hka d12,
    le32_of_drop l _ 16 rs hrs d16, le32_of_drop l _ 20 ra hra d20,
    le32_of_drop l _ 24 ss hss d24, le32_of_drop l _ 28 sa hsa d28,
    le32_of_drop l _ 32 ta hta d32, le32_of_drop l _ 36 ps hps d36,
    le32_of_drop l _ 40 u0 hu0 d40, le32_of_drop l _ 44 u1 hu1 d44,
    bytes_of_drop l _ _ 48 16 d48 hname, bytes_of_drop l _ _ 64 512 d64 hcmd,
    bytes_of_drop l _ _ 608 1024 d608b hextra]

/-- The value `grub_android_bootimg_read` returns when the device serves the
clamped request. -/
theorem bootimg_read_ok (P : Platform) (f : grub_file) (len : Nat) (w : World)
    (hbits : P.size_bits ≤ 64) (hoff : f.offset ≤ f.size) (hsize : f.size < 2 ^ P.size_bits)
    (hread : f.disk.read_err ((f.data + f.offset) % 2 ^ 64) (min len (f.size - f.offset))
      = GRUB_ERR_NONE) :
    grub_android_bootimg_read P f len w =
      { ret := to_ssize P.size_bits (min len (f.size - f.offset))
        buf := (List.range (min len (f.size - f.offset))).map
          (fun i => f.disk.data ((f.data + f.offset) % 2 ^ 64 + i))
        file := { f with disk := { f.disk with read_hook := none,
                                               read_hook_data := f.read_hook_data } }
        world := { w with grub_errno := GRUB_ERR_NONE,
                          reads := (f.disk.name, (f.data + f.offset) % 2 ^ 64,
                            min len (f.size - f.offset)) :: w.reads } } := by
  have hB : 2 ^ P.size_bits ≤ 2 ^ 64 := Nat.pow_le_pow_right (by norm_num) hbits
  have hleft : ((f.size + 2 ^ 64 - f.offset % 2 ^ 64) % 2 ^ 64) % 2 ^ P.size_bits
      = f.size - f.offset := by
    have h1 : (f.size + 2 ^ 64 - f.offset % 2 ^ 64) % 2 ^ 64 = f.size - f.offset := by omega
    rw [h1]
    exact Nat.mod_eq_of_lt (by omega)
  have hclamp : (if len > f.size - f.offset then f.size - f.offset else len)
      = min len (f.size - f.offset) := by
    split <;> omega
  simp only [grub_android_bootimg_read, hleft, hclamp, grub_disk_read, hread, if_true]

theorem grub_memchr_none_iff (c : UInt8) : ∀ (n : Nat) (s : List UInt8),
    grub_memchr s c n = none ↔ ∀ i, i < n → s.getD i 0 ≠ c := by
  intro n
  induction n with
  | zero => intro s; simp [grub_memchr]
  | succ n ih =>
    intro s
    have hhead : s.headD 0 = s.getD 0 0 := by cases s <;> rfl
    have htail : ∀ i, s.tail.getD i 0 = s.getD (i + 1) 0 := by
      intro i; cases s <;> rfl
    by_cases h0 : s.getD 0 0 = c
    · simp only [grub_memchr, hhead, h0, if_true]
      constructor
      · intro h; cases h
      · intro h; exact absurd h0 (h 0 (by omega))
    · simp only [grub_memchr, hhead, h0, if_false, Option.map_eq_none', ih s.tail]
      constructor
      · intro h i hi
        rcases Nat.eq_zero_or_pos i with rfl | hpos
        · exact h0
        · obtain ⟨j, rfl⟩ : ∃ j, i = j + 1 := ⟨i - 1, by omega⟩
          rw [← htail]
          exact h j (by omega)
      · intro h i hi
        rw [htail]
        exact h (i + 1) (by omega)

/-- The C string at the start of a buffer ends before its first NUL. -/
theorem c_string_eq_take : ∀ (s : List UInt8) (k : Nat), k < s.length → s.getD k 0 = 0 →
    (∀ i, i < k → s.getD i 0 ≠ 0) → c_string s = s.take k := by
  intro s
  induction s with
  | nil => intro k hk; simp at hk
  | cons x t ih =>
    intro k hk h0 hne
    cases k with
    | zero =>
      have hx : x = 0 := h0
      simp [c_string, List.takeWhile, hx]
    | succ k =>
      have hx : x ≠ 0 := hne 0 (by omega)
      have := ih k (by simpa using hk) h0 (fun i hi => hne (i + 1) (by omega))
      simp only [c_string] at this
      have hb : (x != 0) = true := bne_iff_ne.mpr hx
      simp only [c_string, List.takeWhile, hb, this, List.take_succ_cons]

/-- The command member of the message read from a device. -/
theorem command_bytes (d : grub_disk) :
    bytesAt ((List.range sizeof_bootloader_message).map d.data) 0 32
      = (List.range 32).map d.data := by
  rw [bytesAt_map_range d.data sizeof_bootloader_message 0 32 (by decide)]
  simp

/-- The run of `read_message` on a device whose command has no NUL. -/
theorem read_message_no_nul (P : Platform) (name : String) (w : World) (d : grub_disk)
    (hopen : P.disk_open name = .ok d)
    (hread : d.read_err 0 sizeof_bootloader_message = GRUB_ERR_NONE)
    (hno : ∀ i, i < 32 → d.data i ≠ 0) :
    read_message P name w =
      (GRUB_ERR_BAD_FS,
        { w with grub_errno := GRUB_ERR_BAD_FS,
                 reads := (d.name, 0, sizeof_bootloader_message) :: w.reads,
                 closed := d.name :: w.closed }) := by
  have hm : grub_memchr ((List.range 32).map d.data) 0 32 = none := by
    rw [grub_memchr_none_iff]
    intro i hi
    rw [getD_map_range d.data 32 i hi]
    exact hno i hi
  simp only [read_message, grub_disk_open, hopen, grub_disk_read_ok d _ w hread, command_bytes,
    hm, if_true, grub_error, grub_disk_close]

/-- The run of `read_message` on a device whose command has its first NUL at
position `k`. -/
theorem read_message_nul (P : Platform) (name : String) (w : World) (d : grub_disk) (k : Nat)
    (hopen : P.disk_open name = .ok d)
    (hread : d.read_err 0 sizeof_bootloader_message = GRUB_ERR_NONE)
    (hk : k < 32) (h0 : d.data k = 0) (hne : ∀ i, i < k → d.data i ≠ 0) :
    read_message P name w =
      (GRUB_ERR_NONE,
        { w with
          env := fun key =>
            if key = "android_bcb_command" then some ((List.range k).map d.data) else w.env key
          reads := (d.name, 0, sizeof_bootloader_message) :: w.reads
          closed := d.name :: w.closed }) := by
  have hm : grub_memchr ((List.range 32).map d.data) 0 32 ≠ none := by
    rw [Ne, grub_memchr_none_iff]
    intro h
    exact h k hk (by rw [getD_map_range d.data 32 k hk]; exact h0)
  have hc : c_string ((List.range 32).map d.data) = (List.range k).map d.data := by
    rw [c_string_eq_take _ k (by simpa using hk)
      (by rw [getD_map_range d.data 32 k hk]; exact h0)
      (fun i hi => by rw [getD_map_range d.data 32 i (by omega)]; exact hne i hi)]
    rw [← List.map_take, List.take_range, Nat.min_eq_left (by omega)]
  simp only [read_message, grub_disk_open, hopen, grub_disk_read_ok d _ w hread, command_bytes,
    hm, if_false, grub_env_set, hc, grub_disk_close]

/-- The run of `read_message` on a device that refuses the read. -/
theorem read_message_read_fail (P : Platform) (name : String) (w : World) (d : grub_disk)
    (hopen : P.disk_open name = .ok d)
    (hread : d.read_err 0 sizeof_bootloader_message ≠ GRUB_ERR_NONE) :
    read_message P name w =
      (d.read_err 0 sizeof_bootloader_message,
        { w with grub_errno := d.read_err 0 sizeof_bootloader_message,
                 reads := (d.name, 0, sizeof_bootloader_message) :: w.reads,
                 closed := d.name :: w.closed }) := by
  simp only [read_message, grub_disk_open, hopen, grub_disk_read, if_neg hread, grub_disk_close]

/-- The run of `read_message` on a name that does not open. -/
theorem read_message_open_fail (P : Platform) (name : String) (w : World) (e : grub_err_t)
    (hopen : P.disk_open name = .error e) :
    read_message P name w = (e, { w with grub_errno := e }) := by
  simp only [read_message, grub_disk_open, hopen]

/-- The run of `grub_android_bootimg_read` when the device refuses the clamped
request. -/
theorem bootimg_read_fail (P : Platform) (f : grub_file) (len : Nat) (w : World)
    (hbits : P.size_bits ≤ 64) (hoff : f.offset ≤ f.size) (hsize : f.size < 2 ^ P.size_bits)
    (hread : f.disk.read_err ((f.data + f.offset) % 2 ^ 64) (min len (f.size - f.offset))
      ≠ GRUB_ERR_NONE) :
    grub_android_bootimg_read P f len w =
      { ret := -1
        buf := []
        file := { f with disk := { f.disk with read_hook := none,
                                               read_hook_data := f.read_hook_data } }
        world := { w with
          grub_errno := f.disk.read_err ((f.data + f.offset) % 2 ^ 64)
            (min len (f.size - f.offset))
          reads := (f.disk.name, (f.data + f.offset) % 2 ^ 64,
            min len (f.size - f.offset)) :: w.reads } } := by
  have hB : 2 ^ P.size_bits ≤ 2 ^ 64 := Nat.pow_le_pow_right (by norm_num) hbits
  have hleft : ((f.size + 2 ^ 64 - f.offset % 2 ^ 64) % 2 ^ 64) % 2 ^ P.size_bits
      = f.size - f.offset := by
    have h1 : (f.size + 2 ^ 64 - f.offset % 2 ^ 64) % 2 ^ 64 = f.size - f.offset := by omega
    rw [h1]
    exact Nat.mod_eq_of_lt (by omega)
  have hclamp : (if len > f.size - f.offset then f.size - f.offset else len)
      = min len (f.size - f.offset) := by
    split <;> omega
  simp only [grub_android_bootimg_read, hleft, hclamp, grub_disk_read, if_neg hread]

/-- The run of `grub_android_bootimg_load_kernel` on an accepted header when the
allocator refuses one of the four requests. -/
theorem load_kernel_alloc_fail (P : Platform) (path : String) (w : World) (d : grub_disk)
    (hopen : P.disk_open path = .ok d)
    (hread : d.read_err 0 sizeof_boot_img_hdr = GRUB_ERR_NONE)
    (hmagic : (List.range 8).map d.data = BOOT_MAGIC)
    (hu0 : le32 d.data 40 = 0) (hu1 : le32 d.data 44 = 0)
    (hfail : ¬ ∀ i, i < 4 → P.alloc_ok (w.allocs + i) = true) :
    (grub_android_bootimg_load_kernel P path w).ret = GRUB_ERR_OUT_OF_MEMORY ∧
    (grub_android_bootimg_load_kernel P path w).file = none ∧
    (grub_android_bootimg_load_kernel P path w).cmdline = none ∧
    (grub_android_bootimg_load_kernel P path w).world.closed = d.name :: w.closed := by
  simp only [grub_android_bootimg_load_kernel, grub_disk_open, hopen,
    read_hdr_accept P d w hread hmagic hu0 hu1, grub_malloc]
  cases h0 : P.alloc_ok w.allocs
  · simp [load_err, grub_disk_close, grub_free, h0]
  · cases h1 : P.alloc_ok (w.allocs + 1)
    · simp [load_err, grub_disk_close, grub_free, h0, h1]
    · cases h2 : P.alloc_ok (w.allocs + 1 + 1)
      · simp [load_err, grub_disk_close, grub_free, h0, h1, h2]
      · cases h3 : P.alloc_ok (w.allocs + 1 + 1 + 1)
        · simp [load_err, grub_disk_close, grub_free, h0, h1, h2, h3]
        · exfalso
          apply hfail
          intro i hi
          have : i = 0 ∨ i = 1 ∨ i = 2 ∨ i = 3 := by omega
          rcases this with rfl | rfl | rfl | rfl
          · exact h0
          · exact h1
          · exact h2
          · exact h3

/-- The run of `grub_android_bootimg_load_initrd` on an accepted header that
declares a ramdisk when the allocator refuses one of the four requests. -/
theorem load_initrd_alloc_fail (P : Platform) (path : String) (w : World) (d : grub_disk)
    (hopen : P.disk_open path = .ok d)
    (hread : d.read_err 0 sizeof_boot_img_hdr = GRUB_ERR_NONE)
    (hmagic : (List.range 8).map d.data = BOOT_MAGIC)
    (hu0 : le32 d.data 40 = 0) (hu1 : le32 d.data 44 = 0)
    (hrd : le32 d.data 16 ≠ 0)
    (hfail : ¬ ∀ i, i < 4 → P.alloc_ok (w.allocs + i) = true) :
    ∃ r, grub_android_bootimg_load_initrd P path w = some r ∧
      r.ret = GRUB_ERR_OUT_OF_MEMORY ∧ r.file = none ∧
      r.world.closed = d.name :: w.closed := by
  simp only [grub_android_bootimg_load_initrd, grub_disk_open, hopen,
    read_hdr_accept P d w hread hmagic hu0 hu1, grub_malloc]
  have hrd2 : (device_hdr d.data).ramdisk_size ≠ 0 := hrd
  rw [if_neg hrd2]
  cases h0 : P.alloc_ok w.allocs
  · simp [load_err, grub_disk_close, grub_free, h0]
  · cases h1 : P.alloc_ok (w.allocs + 1)
    · simp [load_err, grub_disk_close, grub_free, h0, h1]
    · cases h2 : P.alloc_ok (w.allocs + 1 + 1)
      · simp [load_err, grub_disk_close, grub_free, h0, h1, h2]
      · cases h3 : P.alloc_ok (w.allocs + 1 + 1 + 1)
        · simp [load_err, grub_disk_close, grub_free, h0, h1, h2, h3]
        · exfalso
          apply hfail
          intro i hi
          have : i = 0 ∨ i = 1 ∨ i = 2 ∨ i = 3 := by omega
          rcases this with rfl | rfl | rfl | rfl
          · exact h0
          · exact h1
          · exact h2
          · exact h3

/-- Whatever `grub_android_bootimg_load_kernel` stores through `file` has a
32-bit base offset and a 32-bit length. -/
theorem load_kernel_file_bounds (P : Platform) (path : String) (w : World) (f : grub_file)
    (h : (grub_android_bootimg_load_kernel P path w).file = some f) :
    f.data < 2 ^ 32 ∧ f.size < 2 ^ 32 := by
  cases hopen : P.disk_open path with
  | error e =>
    simp [grub_android_bootimg_load_kernel, grub_disk_open, hopen, load_err] at h
  | ok d =>
    by_cases hrej : d.read_err 0 sizeof_boot_img_hdr ≠ GRUB_ERR_NONE
        ∨ (List.range 8).map d.data ≠ BOOT_MAGIC ∨ le32 d.data 40 ≠ 0 ∨ le32 d.data 44 ≠ 0
    · rw [load_kernel_reject P path w d hopen hrej] at h
      cases h
    · simp only [not_or, not_not] at hrej
      obtain ⟨h1, h2, h3, h4⟩ := hrej
      by_cases halloc : ∀ i, i < 4 → P.alloc_ok (w.allocs + i) = true
      · rw [load_kernel_accept P path w d hopen h1 h2 h3 h4 halloc] at h
        simp only [Option.some.injEq] at h
        subst h
        exact ⟨le32_lt d.data 36, le32_lt d.data 8⟩
      · rw [(load_kernel_alloc_fail P path w d hopen h1 h2 h3 h4 halloc).2.1] at h
        cases h

/-- Whatever `grub_android_bootimg_load_initrd` stores through `file` has a
32-bit base offset and a 32-bit length. -/
theorem load_initrd_file_bounds (P : Platform) (path : String) (w : World) (r : LoadResult)
    (f : grub_file) (hr : grub_android_bootimg_load_initrd P path w = some r)
    (h : r.file = some f) :
    f.data < 2 ^ 32 ∧ f.size < 2 ^ 32 := by
  cases hopen : P.disk_open path with
  | error e =>
    simp only [grub_android_bootimg_load_initrd, grub_disk_open, hopen, load_err,
      Option.some.injEq] at hr
    subst hr
    cases h
  | ok d =>
    by_cases hrej : d.read_err 0 sizeof_boot_img_hdr ≠ GRUB_ERR_NONE
        ∨ (List.range 8).map d.data ≠ BOOT_MAGIC ∨ le32 d.data 40 ≠ 0 ∨ le32 d.data 44 ≠ 0
    · rw [load_initrd_reject P path w d hopen hrej, Option.some.injEq] at hr
      subst hr
      cases h
    · simp only [not_or, not_not] at hrej
      obtain ⟨h1, h2, h3, h4⟩ := hrej
      by_cases hrd : le32 d.data 16 = 0
      · rw [load_initrd_no_ramdisk P path w d hopen h1 h2 h3 h4 hrd, Option.some.injEq] at hr
        subst hr
        cases h
      · by_cases halloc : ∀ i, i < 4 → P.alloc_ok (w.allocs + i) = true
        · rw [load_initrd_accept P path w d hopen h1 h2 h3 h4 hrd halloc] at hr
          by_cases hp : le32 d.data 36 = 0
          · rw [if_pos hp] at hr
            cases hr
          · rw [if_neg hp, Option.some.injEq] at hr
            subst hr
            simp only [Option.some.injEq] at h
            subst h
            exact ⟨Nat.mod_lt _ (by norm_num), le32_lt d.data 16⟩
        · obtain ⟨r', hr', -, hf, -⟩ :=
            load_initrd_alloc_fail P path w d hopen h1 h2 h3 h4 hrd halloc
          rw [hr', Option.some.injEq] at hr
          subst hr
          rw [hf] at h
          cases h

/-- On every run `read_message` leaves the allocation counter alone, changes
no environment variable other than `android_bcb_command`, and changes none at
all unless it returns `GRUB_ERR_NONE`. -/
theorem read_message_frame (P : Platform) (name : String) (w : World) :
    (read_message P name w).2.allocs = w.allocs ∧
    (∀ key, key ≠ "android_bcb_command" → (read_message P name w).2.env key = w.env key) ∧
    ((read_message P name w).1 ≠ GRUB_ERR_NONE → (read_message P name w).2.env = w.env) := by
  cases hopen : P.disk_open name with
  | error e =>
    rw [read_message_open_fail P name w e hopen]
    exact ⟨rfl, fun _ _ => rfl, fun _ => rfl⟩
  | ok d =>
    by_cases hread : d.read_err 0 sizeof_bootloader_message = GRUB_ERR_NONE
    · by_cases hnul : ∃ i, i < 32 ∧ d.data i = 0
      · have hk := Nat.find_spec hnul
        rw [read_message_nul P name w d (Nat.find hnul) hopen hread hk.1 hk.2
          (fun i hi h0 => Nat.find_min hnul hi ⟨by omega, h0⟩)]
        refine ⟨rfl, fun key hkey => ?_, fun h => absurd rfl h⟩
        simp only [if_neg hkey]
      · rw [read_message_no_nul P name w d hopen hread (fun i hi h0 => hnul ⟨i, hi, h0⟩)]
        exact ⟨rfl, fun _ _ => rfl, fun _ => rfl⟩
    · rw [read_message_read_fail P name w d hopen hread]
      exact ⟨rfl, fun _ _ => rfl, fun _ => rfl⟩

/-- When nothing wraps, the ramdisk offset is the least multiple of the page
size that leaves room for the header page and the kernel. -/
theorem ramdisk_begin_least (hd : boot_img_hdr) (hp : 0 < hd.page_size)
    (hfit : hd.page_size * (1 + (hd.kernel_size + hd.page_size - 1) / hd.page_size) < 2 ^ 32) :
    hd.page_size ∣ ramdisk_begin32 hd ∧
    hd.page_size + hd.kernel_size ≤ ramdisk_begin32 hd ∧
    ∀ m, hd.page_size ∣ m → hd.page_size + hd.kernel_size ≤ m → ramdisk_begin32 hd ≤ m := by
  rw [(ramdisk_offset_exact hd hp hfit).2]
  have hdm := Nat.div_add_mod (hd.kernel_size + hd.page_size - 1) hd.page_size
  have hmod := Nat.mod_lt (hd.kernel_size + hd.page_size - 1) hp
  generalize (hd.kernel_size + hd.page_size - 1) / hd.page_size = c at hdm ⊢
  generalize (hd.kernel_size + hd.page_size - 1) % hd.page_size = r at hdm hmod
  have hmul : hd.page_size * (1 + c) = hd.page_size + hd.page_size * c := by ring
  refine ⟨Dvd.intro _ rfl, by omega, ?_⟩
  rintro m ⟨q, rfl⟩ hle
  apply Nat.mul_le_mul_left
  by_contra hlt
  have hq : q ≤ c := by omega
  have := Nat.mul_le_mul_left hd.page_size hq
  omega

/-! ### C1: the base offset and the length of the ramdisk view -/

/-- C1 (amended): for every valid boot image header (magic `"ANDROID!"`, both
unused words zero, `ramdisk_size` non-zero) with `page_size > 0` and with
`page_size * (1 + ceil (kernel_size / page_size))` below `2 ^ 32`,
`grub_android_bootimg_load_initrd` succeeds (the device opens and is read, the
allocator serves the four requests) and yields a view named `"ramdisk"` whose
base offset is `page_size * (1 + ceil (kernel_size / page_size))` over the
exact integers and whose length is `ramdisk_size`. -/
theorem load_initrd_base_offset (P : Platform) (path : String) (w : World) (d : grub_disk)
    (hopen : P.disk_open path = .ok d)
    (hread : d.read_err 0 sizeof_boot_img_hdr = GRUB_ERR_NONE)
    (hmagic : (List.range 8).map d.data = BOOT_MAGIC)
    (hu0 : le32 d.data 40 = 0) (hu1 : le32 d.data 44 = 0)
    (hrd : le32 d.data 16 ≠ 0)
    (halloc : ∀ i, i < 4 → P.alloc_ok (w.allocs + i) = true)
    (hp : 0 < le32 d.data 36)
    (hfit : le32 d.data 36 * (1 + ⌈(le32 d.data 8 : ℚ) / (le32 d.data 36 : ℚ)⌉₊) < 2 ^ 32) :
    ∃ r f, grub_android_bootimg_load_initrd P path w = some r ∧ r.ret = GRUB_ERR_NONE ∧
      r.file = some f ∧ f.name = "ramdisk" ∧
      f.data = le32 d.data 36 * (1 + ⌈(le32 d.data 8 : ℚ) / (le32 d.data 36 : ℚ)⌉₊) ∧
      f.size = le32 d.data 16 := by
  rw [ceil_div_eq _ _ hp] at hfit ⊢
  have hex := (ramdisk_offset_exact (device_hdr d.data) hp hfit).2
  rw [load_initrd_accept P path w d hopen hread hmagic hu0 hu1 hrd halloc,
    if_neg (Nat.pos_iff_ne_zero.mp hp)]
  exact ⟨_, _, rfl, rfl, rfl, rfl, hex, rfl⟩

/-- The example of C1: 2048-byte pages and a 4097-byte kernel put the ramdisk at
offset 8192. -/
theorem load_initrd_base_offset_witness :
    ∃ r f, grub_android_bootimg_load_initrd (one_disk .big 32 small_image) "hd0,gpt2"
        World.start = some r ∧ r.ret = GRUB_ERR_NONE ∧ r.file = some f ∧ f.name = "ramdisk" ∧
      f.data = 2048 * (1 + ⌈(4097 : ℚ) / (2048 : ℚ)⌉₊) ∧ f.data = 8192 ∧ f.size = 300 := by
  have h8 : le32 small_image.data 8 = 4097 := by decide
  have h36 : le32 small_image.data 36 = 2048 := by decide
  have h16 : le32 small_image.data 16 = 300 := by decide
  have hc : ⌈((4097 : ℕ) : ℚ) / ((2048 : ℕ) : ℚ)⌉₊ = 3 := by
    rw [ceil_div_eq 4097 2048 (by norm_num)]
  have := load_initrd_base_offset (one_disk .big 32 small_image) "hd0,gpt2" World.start
    small_image rfl (by decide) (by decide) (by decide) (by decide) (by decide)
    (fun _ _ => rfl) (by decide) (by rw [h8, h36, hc]; norm_num)
  rw [h8, h36, h16] at this
  obtain ⟨r, f, e1, e2, e3, e4, e5, e6⟩ := this
  refine ⟨r, f, e1, e2, e3, e4, ?_, ?_, e6⟩
  · exact_mod_cast e5
  · rw [e5, hc]

/-- C1 as stated fails: a valid header with `page_size = 2 ^ 31`,
`kernel_size = 1` and a non-zero `ramdisk_size` yields a view at base offset 0,
while `page_size * (1 + ceil (kernel_size / page_size))` is `2 ^ 32`. -/
theorem initrd_offset_wraps_at_huge_page :
    (List.range 8).map huge_page_image.data = BOOT_MAGIC ∧
    le32 huge_page_image.data 40 = 0 ∧ le32 huge_page_image.data 44 = 0 ∧
    le32 huge_page_image.data 16 ≠ 0 ∧
    le32 huge_page_image.data 36 = 2147483648 ∧ le32 huge_page_image.data 8 = 1 ∧
    ∃ r f, grub_android_bootimg_load_initrd (one_disk .little 64 huge_page_image) "hd0,gpt2"
        World.start = some r ∧ r.file = some f ∧ f.data = 0 ∧
      le32 huge_page_image.data 36
        * (1 + ⌈(le32 huge_page_image.data 8 : ℚ) / (le32 huge_page_image.data 36 : ℚ)⌉₊)
        = 4294967296 ∧
      f.data ≠ le32 huge_page_image.data 36
        * (1 + ⌈(le32 huge_page_image.data 8 : ℚ) / (le32 huge_page_image.data 36 : ℚ)⌉₊) := by
  have h8 : le32 huge_page_image.data 8 = 1 := by decide
  have h36 : le32 huge_page_image.data 36 = 2147483648 := by decide
  have hb : ramdisk_begin32 (device_hdr huge_page_image.data) = 0 := by decide
  have hc : le32 huge_page_image.data 36
      * (1 + ⌈(le32 huge_page_image.data 8 : ℚ) / (le32 huge_page_image.data 36 : ℚ)⌉₊)
      = 4294967296 := by
    rw [ceil_div_eq _ _ (by rw [h36]; norm_num), h8, h36]
  refine ⟨by decide, by decide, by decide, by decide, h36, h8, ?_⟩
  rw [load_initrd_accept (one_disk .little 64 huge_page_image) "hd0,gpt2" World.start
    huge_page_image rfl (by decide) (by decide) (by decide) (by decide) (by decide)
    (fun _ _ => rfl), if_neg (by rw [h36]; norm_num), hb]
  refine ⟨_, _, rfl, rfl, rfl, hc, ?_⟩
  rw [hc]
  norm_num

/-! ### C2: wrap-around in the ramdisk offset arithmetic -/

/-- C2 (amended): for every header accepted by `read_hdr` with `page_size > 0`,
whose members are 32-bit values, the 32-bit values of
`kernel_size + page_size - 1` and of
`page_size * (1 + (kernel_size + page_size - 1) / page_size)` equal their exact
integer values if and only if the exact product is below `2 ^ 32`; that is the
case whenever `kernel_size + 2 * page_size ≤ 2 ^ 32`. -/
theorem ramdisk_arith_exact_iff (P : Platform) (d : grub_disk) (w w' : World)
    (hd : boot_img_hdr) (hacc : read_hdr P d w = (.ok hd, w')) (hp : 0 < hd.page_size) :
    hd.kernel_size < 2 ^ 32 ∧ hd.page_size < 2 ^ 32 ∧
    ((ramdisk_round32 hd = hd.kernel_size + hd.page_size - 1 ∧
        ramdisk_begin32 hd
          = hd.page_size * (1 + (hd.kernel_size + hd.page_size - 1) / hd.page_size))
      ↔ hd.page_size * (1 + (hd.kernel_size + hd.page_size - 1) / hd.page_size) < 2 ^ 32) ∧
    (hd.kernel_size + 2 * hd.page_size ≤ 2 ^ 32 →
      hd.page_size * (1 + (hd.kernel_size + hd.page_size - 1) / hd.page_size) < 2 ^ 32) := by
  have hdev := (read_hdr_ok_inv P d w w' hd hacc).1
  refine ⟨by rw [hdev]; exact le32_lt d.data 8, by rw [hdev]; exact le32_lt d.data 36, ?_, ?_⟩
  · constructor
    · rintro ⟨-, h2⟩
      rw [← h2]
      exact Nat.mod_lt _ (by norm_num)
    · exact ramdisk_offset_exact hd hp
  · intro hsmall
    have hdm := Nat.div_add_mod (hd.kernel_size + hd.page_size - 1) hd.page_size
    have hmul : hd.page_size * (1 + (hd.kernel_size + hd.page_size - 1) / hd.page_size)
        = hd.page_size + hd.page_size * ((hd.kernel_size + hd.page_size - 1) / hd.page_size) := by
      ring
    omega

/-- An accepted header to which C2 (amended) applies: 2048-byte pages and a
4097-byte kernel give the intermediate values 6144 and 8192, on a big-endian
host as well. -/
theorem ramdisk_arith_exact_iff_witness :
    ∃ hd w', read_hdr (one_disk .big 32 small_image) small_image World.start = (.ok hd, w') ∧
      hd.kernel_size = 4097 ∧ hd.page_size = 2048 ∧
      ramdisk_round32 hd = 6144 ∧ ramdisk_begin32 hd = 8192 := by
  have hacc := read_hdr_accept (one_disk .big 32 small_image) small_image World.start
    (by decide) (by decide) (by decide) (by decide)
  have h8 : (device_hdr small_image.data).kernel_size = 4097 := by decide
  have h36 : (device_hdr small_image.data).page_size = 2048 := by decide
  have h := ramdisk_arith_exact_iff (one_disk .big 32 small_image) small_image World.start
    _ (device_hdr small_image.data) hacc (by decide)
  have hex := h.2.2.1.mpr (h.2.2.2 (by decide))
  rw [h8, h36] at hex
  exact ⟨_, _, hacc, h8, h36, hex.1, hex.2⟩

/-- C2 as stated fails: `read_hdr` accepts a header with
`kernel_size = 2 ^ 32 - 1` and `page_size = 2`, for which the 32-bit value of
`kernel_size + page_size - 1` is 0 instead of `2 ^ 32`, and the 32-bit value of
the product is 2 instead of `2 ^ 32 + 2`. -/
theorem round_up_wraps_at_huge_kernel :
    ∃ hd w', read_hdr (one_disk .little 64 huge_kernel_image) huge_kernel_image World.start
        = (.ok hd, w') ∧
      hd.kernel_size = 4294967295 ∧ hd.page_size = 2 ∧
      ramdisk_round32 hd = 0 ∧ hd.kernel_size + hd.page_size - 1 = 4294967296 ∧
      ramdisk_begin32 hd = 2 ∧
      hd.page_size * (1 + (hd.kernel_size + hd.page_size - 1) / hd.page_size) = 4294967298 := by
  refine ⟨_, _, read_hdr_accept (one_disk .little 64 huge_kernel_image) huge_kernel_image
    World.start (by decide) (by decide) (by decide) (by decide), ?_, ?_, ?_, ?_, ?_, ?_⟩ <;> decide

/-! ### C3: the kernel view -/

/-- C3: for every valid boot image header (magic `"ANDROID!"`, both unused
words zero), on either host byte order, `grub_android_bootimg_load_kernel`
succeeds (the device opens and is read, the allocator serves the four requests)
and yields a view named `"kernel"` whose base offset is the little-endian
decoded `page_size` and whose length is the little-endian decoded
`kernel_size`. -/
theorem load_kernel_view (P : Platform) (path : String) (w : World) (d : grub_disk)
    (hopen : P.disk_open path = .ok d)
    (hread : d.read_err 0 sizeof_boot_img_hdr = GRUB_ERR_NONE)
    (hmagic : (List.range 8).map d.data = BOOT_MAGIC)
    (hu0 : le32 d.data 40 = 0) (hu1 : le32 d.data 44 = 0)
    (halloc : ∀ i, i < 4 → P.alloc_ok (w.allocs + i) = true) :
    (grub_android_bootimg_load_kernel P path w).ret = GRUB_ERR_NONE ∧
    ∃ f, (grub_android_bootimg_load_kernel P path w).file = some f ∧ f.name = "kernel" ∧
      f.data = le32 d.data 36 ∧ f.size = le32 d.data 8 := by
  rw [load_kernel_accept P path w d hopen hread hmagic hu0 hu1 halloc]
  exact ⟨rfl, _, rfl, rfl, rfl, rfl⟩

/-- An instance of C3: with 2048-byte pages and a 4097-byte kernel the kernel
view starts at 2048 and is 4097 bytes long, on a big-endian 32-bit host. -/
theorem load_kernel_view_witness :
    (grub_android_bootimg_load_kernel (one_disk .big 32 small_image) "hd0,gpt2"
      World.start).ret = GRUB_ERR_NONE ∧
    ∃ f, (grub_android_bootimg_load_kernel (one_disk .big 32 small_image) "hd0,gpt2"
        World.start).file = some f ∧ f.name = "kernel" ∧ f.data = 2048 ∧ f.size = 4097 := by
  have h8 : le32 small_image.data 8 = 4097 := by decide
  have h36 : le32 small_image.data 36 = 2048 := by decide
  have h := load_kernel_view (one_disk .big 32 small_image) "hd0,gpt2" World.start small_image
    rfl (by decide) (by decide) (by decide) (by decide) (fun _ _ => rfl)
  rw [h8, h36] at h
  exact h

/-! ### C4: a header without ramdisk -/

/-- C4: for every device whose header is valid (magic matches, unused words
zero) but has `ramdisk_size == 0`, `grub_android_bootimg_load_initrd` returns
`GRUB_ERR_FILE_NOT_FOUND`, which is not the not-a-boot-image error
`GRUB_ERR_BAD_FS`, leaves it in `grub_errno`, and stores no view. -/
theorem load_initrd_zero_ramdisk (P : Platform) (path : String) (w : World) (d : grub_disk)
    (hopen : P.disk_open path = .ok d)
    (hread : d.read_err 0 sizeof_boot_img_hdr = GRUB_ERR_NONE)
    (hmagic : (List.range 8).map d.data = BOOT_MAGIC)
    (hu0 : le32 d.data 40 = 0) (hu1 : le32 d.data 44 = 0)
    (hrd : le32 d.data 16 = 0) :
    ∃ r, grub_android_bootimg_load_initrd P path w = some r ∧
      r.ret = GRUB_ERR_FILE_NOT_FOUND ∧ r.ret ≠ GRUB_ERR_BAD_FS ∧ r.ret ≠ GRUB_ERR_NONE ∧
      r.world.grub_errno = GRUB_ERR_FILE_NOT_FOUND ∧ r.file = none := by
  rw [load_initrd_no_ramdisk P path w d hopen hread hmagic hu0 hu1 hrd]
  exact ⟨_, rfl, rfl, (fun h => by cases h), (fun h => by cases h), rfl, rfl⟩

/-- An instance of C4: a well-formed image that declares a ramdisk of zero
bytes. -/
theorem load_initrd_zero_ramdisk_witness :
    ∃ r, grub_android_bootimg_load_initrd (one_disk .little 64 no_ramdisk_image) "hd0,gpt3"
        World.start = some r ∧
      r.ret = GRUB_ERR_FILE_NOT_FOUND ∧ r.ret ≠ GRUB_ERR_BAD_FS ∧ r.ret ≠ GRUB_ERR_NONE ∧
      r.world.grub_errno = GRUB_ERR_FILE_NOT_FOUND ∧ r.file = none :=
  load_initrd_zero_ramdisk (one_disk .little 64 no_ramdisk_image) "hd0,gpt3" World.start
    no_ramdisk_image rfl (by decide) (by decide) (by decide) (by decide) (by decide)

/-! ### C5: a wrong magic -/

/-- C5: for every device whose first 8 bytes differ from the bytes of
`"ANDROID!"`, `read_hdr` fails with `GRUB_ERR_BAD_FS`, and so do
`grub_android_bootimg_load_kernel` and `grub_android_bootimg_load_initrd` on
any name that opens this device; neither stores a view. -/
theorem bad_magic_rejected (P : Platform) (d : grub_disk) (w : World)
    (hmagic : (List.range 8).map d.data ≠ BOOT_MAGIC) :
    (read_hdr P d w).1 = .error GRUB_ERR_BAD_FS ∧
    (read_hdr P d w).2.grub_errno = GRUB_ERR_BAD_FS ∧
    ∀ path, P.disk_open path = .ok d →
      (grub_android_bootimg_load_kernel P path w).ret = GRUB_ERR_BAD_FS ∧
      (grub_android_bootimg_load_kernel P path w).file = none ∧
      ∃ r, grub_android_bootimg_load_initrd P path w = some r ∧ r.ret = GRUB_ERR_BAD_FS ∧
        r.file = none := by
  have hrej : d.read_err 0 sizeof_boot_img_hdr ≠ GRUB_ERR_NONE
      ∨ (List.range 8).map d.data ≠ BOOT_MAGIC ∨ le32 d.data 40 ≠ 0 ∨ le32 d.data 44 ≠ 0 :=
    Or.inr (Or.inl hmagic)
  refine ⟨by rw [read_hdr_reject P d w hrej], by rw [read_hdr_reject P d w hrej], ?_⟩
  intro path hopen
  rw [load_kernel_reject P path w d hopen hrej, load_initrd_reject P path w d hopen hrej]
  exact ⟨rfl, rfl, _, rfl, rfl, rfl⟩

/-- An instance of C5: a device full of zeros. -/
theorem bad_magic_rejected_witness :
    (read_hdr (one_disk .little 64 blank_disk) blank_disk World.start).1
      = .error GRUB_ERR_BAD_FS ∧
    (grub_android_bootimg_load_kernel (one_disk .little 64 blank_disk) "hd1"
      World.start).ret = GRUB_ERR_BAD_FS ∧
    ∃ r, grub_android_bootimg_load_initrd (one_disk .little 64 blank_disk) "hd1" World.start
      = some r ∧ r.ret = GRUB_ERR_BAD_FS ∧ r.file = none := by
  have h := bad_magic_rejected (one_disk .little 64 blank_disk) blank_disk World.start
    (by decide)
  have h2 := h.2.2 "hd1" rfl
  exact ⟨h.1, h2.1, h2.2.2⟩

/-! ### C6: non-zero unused words -/

/-- C6: for every header in which `unused[0] != 0` or `unused[1] != 0`,
`read_hdr` rejects the header with `GRUB_ERR_BAD_FS`, whatever the magic and
the other members are and on either host byte order. -/
theorem unused_words_rejected (P : Platform) (d : grub_disk) (w : World)
    (hunused : le32 d.data 40 ≠ 0 ∨ le32 d.data 44 ≠ 0) :
    (read_hdr P d w).1 = .error GRUB_ERR_BAD_FS ∧
    (read_hdr P d w).2.grub_errno = GRUB_ERR_BAD_FS := by
  have hrej : d.read_err 0 sizeof_boot_img_hdr ≠ GRUB_ERR_NONE
      ∨ (List.range 8).map d.data ≠ BOOT_MAGIC ∨ le32 d.data 40 ≠ 0 ∨ le32 d.data 44 ≠ 0 :=
    Or.inr (Or.inr hunused)
  rw [read_hdr_reject P d w hrej]
  exact ⟨rfl, rfl⟩

/-- An instance of C6: the magic and all sizes are those of a good image, the
second unused word is 1. -/
theorem unused_words_rejected_witness :
    (List.range 8).map reserved_word_image.data = BOOT_MAGIC ∧
    le32 reserved_word_image.data 40 = 0 ∧ le32 reserved_word_image.data 44 = 1 ∧
    (read_hdr (one_disk .big 64 reserved_word_image) reserved_word_image World.start).1
      = .error GRUB_ERR_BAD_FS :=
  ⟨by decide, by decide, by decide,
    (unused_words_rejected (one_disk .big 64 reserved_word_image) reserved_word_image
      World.start (Or.inr (by decide))).1⟩

/-! ### C7: the byte order round trip -/

/-- C7: for every choice of 32-bit values for the eight size and address
members and the eight `id` words (and any `name`, `cmdline` and
`extra_cmdline` of the declared sizes), encoding the header with magic
`"ANDROID!"` and zero unused words in little-endian byte order gives 1632
bytes, and `read_hdr` on a device that starts with them succeeds and hands back
every member unchanged, whatever the host byte order. -/
theorem read_hdr_round_trip (P : Platform) (name : String) (w : World) (hd : boot_img_hdr)
    (hmagic : hd.magic = BOOT_MAGIC) (hu0 : hd.unused0 = 0) (hu1 : hd.unused1 = 0)
    (hks : hd.kernel_size < 2 ^ 32) (hka : hd.kernel_addr < 2 ^ 32)
    (hrs : hd.ramdisk_size < 2 ^ 32) (hra : hd.ramdisk_addr < 2 ^ 32)
    (hss : hd.second_size < 2 ^ 32) (hsa : hd.second_addr < 2 ^ 32)
    (hta : hd.tags_addr < 2 ^ 32) (hps : hd.page_size < 2 ^ 32)
    (hname : hd.name.length = 16) (hcmd : hd.cmdline.length = 512)
    (hid : hd.id.length = 8) (hidv : ∀ x ∈ hd.id, x < 2 ^ 32)
    (hextra : hd.extra_cmdline.length = 1024) :
    (encode_hdr hd).length = 1632 ∧
    (read_hdr P (image_disk name (encode_hdr hd)) w).1 = .ok hd := by
  obtain ⟨hlen, hdec⟩ := device_hdr_encode hd hmagic hks hka hrs hra hss hsa hta hps
    (by rw [hu0]; norm_num) (by rw [hu1]; norm_num) hname hcmd hid hidv hextra
  have hdata : (image_disk name (encode_hdr hd)).data = fun i => (encode_hdr hd).getD i 0 := rfl
  refine ⟨hlen, ?_⟩
  rw [read_hdr_accept P (image_disk name (encode_hdr hd)) w rfl
    (by rw [hdata]; simpa [device_hdr, hmagic] using congrArg boot_img_hdr.magic hdec)
    (by rw [hdata]; simpa [device_hdr, hu0] using congrArg boot_img_hdr.unused0 hdec)
    (by rw [hdata]; simpa [device_hdr, hu1] using congrArg boot_img_hdr.unused1 hdec),
    hdata, hdec]

/-- An instance of C7 on a big-endian host. -/
theorem read_hdr_round_trip_witness :
    (encode_hdr (sample_hdr 4097 300 2048)).length = 1632 ∧
    (read_hdr (one_disk .big 32 small_image)
        (image_disk "hd0,gpt2" (encode_hdr (sample_hdr 4097 300 2048))) World.start).1
      = .ok (sample_hdr 4097 300 2048) :=
  read_hdr_round_trip (one_disk .big 32 small_image) "hd0,gpt2" World.start
    (sample_hdr 4097 300 2048) rfl rfl rfl (by decide) (by decide) (by decide) (by decide)
    (by decide) (by decide) (by decide) (by decide) (List.length_replicate 16 0)
    (List.length_replicate 512 0) (List.length_replicate 8 0) (by decide)
    (List.length_replicate 1024 0)

/-! ### C8: reads are clamped to the end of the view -/

/-- C8 (amended): for every view with `offset ≤ size` (the size within the
range of `grub_size_t`) and every requested length `len`, when the device read
succeeds `grub_android_bootimg_read` never returns more than the
`size - offset` bytes left before the declared end, and at `offset = size` it
returns `0`, not the failure value `-1`; the value returned is exactly
`min (len, size - offset)` if and only if that number is representable in the
signed return type `grub_ssize_t`, that is below `2 ^ (size_bits - 1)`, and it
is then not `-1`. -/
theorem bootimg_read_clamped (P : Platform) (f : grub_file) (len : Nat) (w : World)
    (hbits : P.size_bits ≤ 64) (hoff : f.offset ≤ f.size) (hsize : f.size < 2 ^ P.size_bits)
    (hread : f.disk.read_err ((f.data + f.offset) % 2 ^ 64) (min len (f.size - f.offset))
      = GRUB_ERR_NONE) :
    (grub_android_bootimg_read P f len w).ret ≤ ((f.size - f.offset : Nat) : Int) ∧
    (f.offset = f.size → (grub_android_bootimg_read P f len w).ret = 0) ∧
    ((grub_android_bootimg_read P f len w).ret = ((min len (f.size - f.offset) : Nat) : Int)
      ↔ min len (f.size - f.offset) < 2 ^ (P.size_bits - 1)) ∧
    (min len (f.size - f.offset) < 2 ^ (P.size_bits - 1) →
      (grub_android_bootimg_read P f len w).ret ≠ -1) := by
  rw [bootimg_read_ok P f len w hbits hoff hsize hread]
  have hpos : 0 < 2 ^ (P.size_bits - 1) := Nat.pow_pos (by norm_num)
  have hpos2 : 0 < 2 ^ P.size_bits := Nat.pow_pos (by norm_num)
  have hpow : 2 ^ (P.size_bits - 1) ≤ 2 ^ P.size_bits :=
    Nat.pow_le_pow_right (by norm_num) (Nat.sub_le _ _)
  have hmin : min len (f.size - f.offset) ≤ f.size - f.offset := Nat.min_le_right _ _
  have hm : min len (f.size - f.offset) % 2 ^ P.size_bits = min len (f.size - f.offset) :=
    Nat.mod_eq_of_lt (by omega)
  refine ⟨?_, ?_, ?_, ?_⟩
  · simp only [to_ssize, hm]
    split <;> omega
  · intro h
    have h0 : min len (f.size - f.offset) = 0 := by omega
    simp only [to_ssize, h0, Nat.zero_mod, hpos, if_true]
    rfl
  · simp only [to_ssize, hm]
    constructor
    · intro h
      by_contra hfit
      rw [if_neg hfit] at h
      omega
    · intro hfit
      rw [if_pos hfit]
  · intro hfit
    simp only [to_ssize, hm, hfit, if_true]
    omega

/-- Two instances of C8 (amended) on a 32-bit build: with 97 bytes left a
request for 4096 bytes returns 97, and a request at the end of the view
returns 0. -/
theorem bootimg_read_clamped_witness :
    (grub_android_bootimg_read (one_disk .little 32 small_image) kernel_view_at_4000 4096
      World.start).ret = 97 ∧
    (grub_android_bootimg_read (one_disk .little 32 small_image)
      { kernel_view_at_4000 with offset := 4097 } 4096 World.start).ret = 0 :=
  ⟨(bootimg_read_clamped (one_disk .little 32 small_image) kernel_view_at_4000 4096 World.start
      (by decide) (by decide) (by decide) rfl).2.2.1.mpr (by decide),
    (bootimg_read_clamped (one_disk .little 32 small_image)
      { kernel_view_at_4000 with offset := 4097 } 4096 World.start
      (by decide) (by decide) (by decide) rfl).2.1 rfl⟩

/-- C8 as stated fails: on a 32-bit build the kernel view that
`grub_android_bootimg_load_kernel` stores for a header with
`kernel_size = 2 ^ 32 - 1` has `offset = 0 ≤ size = 2 ^ 32 - 1`; a request for
`2 ^ 32 - 1` bytes on it is served by the device, and
`grub_android_bootimg_read` returns `-1`, the failure value, where
`min (len, size - offset)` is `2 ^ 32 - 1`. -/
theorem read_returns_minus_one_on_success :
    ∃ f, (grub_android_bootimg_load_kernel (one_disk .little 32 huge_kernel_image) "hd0,gpt2"
        World.start).file = some f ∧
      f.offset = 0 ∧ f.size = 4294967295 ∧ f.offset ≤ f.size ∧
      f.disk.read_err ((f.data + f.offset) % 2 ^ 64) (min 4294967295 (f.size - f.offset))
        = GRUB_ERR_NONE ∧
      min 4294967295 (f.size - f.offset) = 4294967295 ∧
      (grub_android_bootimg_read (one_disk .little 32 huge_kernel_image) f 4294967295
        World.start).ret = -1 ∧
      (grub_android_bootimg_read (one_disk .little 32 huge_kernel_image) f 4294967295
        World.start).world.grub_errno = GRUB_ERR_NONE ∧
      (grub_android_bootimg_read (one_disk .little 32 huge_kernel_image) f 4294967295
        World.start).ret ≠ ((min 4294967295 (f.size - f.offset) : Nat) : Int) := by
  have h8 : le32 huge_kernel_image.data 8 = 4294967295 := by decide
  have h36 : le32 huge_kernel_image.data 36 = 2 := by decide
  have hk := load_kernel_accept (one_disk .little 32 huge_kernel_image) "hd0,gpt2" World.start
    huge_kernel_image rfl (by decide) (by decide) (by decide) (by decide) (fun _ _ => rfl)
  rw [h8, h36] at hk
  have hr := bootimg_read_ok (one_disk .little 32 huge_kernel_image)
    { name := "kernel", disk := huge_kernel_image, data := 2, size := 4294967295, offset := 0,
      read_hook := none, read_hook_data := none } 4294967295 World.start
    (by decide) (by decide) (by decide) rfl
  have hret : to_ssize 32 (min 4294967295 (4294967295 - 0)) = -1 := by decide
  refine ⟨_, by rw [hk], rfl, rfl, by decide, rfl, by decide, ?_, ?_, ?_⟩
  · rw [hr]
    exact hret
  · rw [hr]
  · rw [hr]
    show to_ssize 32 (min 4294967295 (4294967295 - 0)) ≠ _
    rw [hret]
    decide

/-! ### C9: a command without NUL -/

/-- C9: for every device in which none of the first 32 bytes (the command
member) is NUL, `read_message` returns `GRUB_ERR_BAD_FS` and leaves the
environment as it was; in particular `android_bcb_command` keeps its previous
value. -/
theorem read_message_unterminated (P : Platform) (name : String) (w : World) (d : grub_disk)
    (hopen : P.disk_open name = .ok d)
    (hread : d.read_err 0 sizeof_bootloader_message = GRUB_ERR_NONE)
    (hno : ∀ i, i < 32 → d.data i ≠ 0) :
    (read_message P name w).1 = GRUB_ERR_BAD_FS ∧
    (read_message P name w).2.env = w.env ∧
    (read_message P name w).2.env "android_bcb_command" = w.env "android_bcb_command" := by
  rw [read_message_no_nul P name w d hopen hread hno]
  exact ⟨rfl, rfl, rfl⟩

/-- An instance of C9: a device full of the letter `A`, read when the command
`old` was published before. -/
theorem read_message_unterminated_witness :
    (read_message (one_disk .little 64 filled_disk) "hd2" World.with_command).1
      = GRUB_ERR_BAD_FS ∧
    (read_message (one_disk .little 64 filled_disk) "hd2" World.with_command).2.env
      "android_bcb_command" = some [0x6F, 0x6C, 0x64] := by
  have h := read_message_unterminated (one_disk .little 64 filled_disk) "hd2"
    World.with_command filled_disk rfl rfl (fun _ _ => (by decide : (0x41 : UInt8) ≠ 0))
  exact ⟨h.1, h.2.2.trans rfl⟩

/-! ### C10: the published command -/

/-- C10: for every readable device whose 32-byte command member contains a NUL,
`read_message` returns `GRUB_ERR_NONE` and the value stored under
`android_bcb_command` afterwards is the bytes of the command before its first
NUL, whatever was stored under that key before. -/
theorem read_message_publishes (P : Platform) (name : String) (w : World) (d : grub_disk)
    (hopen : P.disk_open name = .ok d)
    (hread : d.read_err 0 sizeof_bootloader_message = GRUB_ERR_NONE)
    (hnul : ∃ i, i < 32 ∧ d.data i = 0) :
    (read_message P name w).1 = GRUB_ERR_NONE ∧
    ∃ k, k < 32 ∧ d.data k = 0 ∧ (∀ i, i < k → d.data i ≠ 0) ∧
      (read_message P name w).2.env "android_bcb_command" = some ((List.range k).map d.data) := by
  classical
  have hex : ∃ i, i < 32 ∧ d.data i = 0 := hnul
  have hk := Nat.find_spec hex
  have hmin : ∀ i, i < Nat.find hex → d.data i ≠ 0 := by
    intro i hi h0
    exact Nat.find_min hex hi ⟨by omega, h0⟩
  rw [read_message_nul P name w d (Nat.find hex) hopen hread hk.1 hk.2 hmin]
  exact ⟨rfl, Nat.find hex, hk.1, hk.2, hmin, by simp⟩

/-- An instance of C10: a control block that starts with `boot-recovery` and a
NUL, read when the command `old` was published before. -/
theorem read_message_publishes_witness :
    (read_message (one_disk .little 64 recovery_bcb) "hd0,gpt5" World.with_command).1
      = GRUB_ERR_NONE ∧
    (read_message (one_disk .little 64 recovery_bcb) "hd0,gpt5" World.with_command).2.env
      "android_bcb_command"
      = some [0x62, 0x6F, 0x6F, 0x74, 0x2D, 0x72, 0x65, 0x63, 0x6F, 0x76, 0x65, 0x72, 0x79] := by
  obtain ⟨h1, k, hk, h0, hne, hv⟩ := read_message_publishes (one_disk .little 64 recovery_bcb)
    "hd0,gpt5" World.with_command recovery_bcb rfl rfl ⟨13, by decide, by decide⟩
  have hpre : ∀ i, i < 13 → recovery_bcb.data i ≠ 0 := by decide
  have h13 : recovery_bcb.data 13 = 0 := by decide
  have hk13 : k = 13 := by
    rcases Nat.lt_trichotomy k 13 with h | h | h
    · exact absurd h0 (hpre k h)
    · exact h
    · exact absurd h13 (hne 13 h)
  subst hk13
  exact ⟨h1, hv.trans (by decide)⟩

/-! ### C11: the page size is not checked before the division -/

/-- C11 (amended): `read_hdr` does not test `page_size`: a valid header is
accepted with `page_size` equal to the little-endian value of the device bytes
36 to 39, so an accepted header has `page_size > 0` exactly when one of these
four bytes is non-zero; for every accepted header with `page_size > 0` the
division in `grub_android_bootimg_load_initrd` is not a division by zero and
the loader returns. -/
theorem page_size_positive_iff (P : Platform) (path : String) (w : World) (d : grub_disk)
    (hopen : P.disk_open path = .ok d)
    (hread : d.read_err 0 sizeof_boot_img_hdr = GRUB_ERR_NONE)
    (hmagic : (List.range 8).map d.data = BOOT_MAGIC)
    (hu0 : le32 d.data 40 = 0) (hu1 : le32 d.data 44 = 0) :
    (∃ hd w', read_hdr P d w = (.ok hd, w') ∧ hd.page_size = le32 d.data 36 ∧
      (0 < hd.page_size ↔ ∃ i, i < 4 ∧ d.data (36 + i) ≠ 0)) ∧
    (0 < le32 d.data 36 → ∃ r, grub_android_bootimg_load_initrd P path w = some r) := by
  constructor
  · refine ⟨_, _, read_hdr_accept P d w hread hmagic hu0 hu1, rfl, ?_⟩
    have hz : ∀ b : UInt8, b = 0 ↔ b.toNat = 0 := fun b => UInt8.ext_iff
    show 0 < le32 d.data 36 ↔ _
    simp only [le32]
    constructor
    · intro hpos
      by_contra hno
      simp only [not_exists, not_and, not_not] at hno
      have e0 := (hz _).mp (hno 0 (by omega))
      have e1 := (hz _).mp (hno 1 (by omega))
      have e2 := (hz _).mp (hno 2 (by omega))
      have e3 := (hz _).mp (hno 3 (by omega))
      simp only [Nat.add_zero] at e0
      omega
    · rintro ⟨i, hi, hne⟩
      have hne2 : (d.data (36 + i)).toNat ≠ 0 := fun h => hne ((hz _).mpr h)
      have : i = 0 ∨ i = 1 ∨ i = 2 ∨ i = 3 := by omega
      rcases this with rfl | rfl | rfl | rfl <;> simp only [Nat.add_zero] at hne2 <;> omega
  · intro hp
    by_cases hrd : le32 d.data 16 = 0
    · exact ⟨_, load_initrd_no_ramdisk P path w d hopen hread hmagic hu0 hu1 hrd⟩
    · by_cases halloc : ∀ i, i < 4 → P.alloc_ok (w.allocs + i) = true
      · rw [load_initrd_accept P path w d hopen hread hmagic hu0 hu1 hrd halloc,
          if_neg (Nat.pos_iff_ne_zero.mp hp)]
        exact ⟨_, rfl⟩
      · obtain ⟨r, hr, -⟩ :=
          load_initrd_alloc_fail P path w d hopen hread hmagic hu0 hu1 hrd halloc
        exact ⟨r, hr⟩

/-- An instance of C11 (amended): `small_image` stores the page size 2048, is
accepted with that value, and the ramdisk loader returns. -/
theorem page_size_positive_iff_witness :
    (∃ hd w', read_hdr (one_disk .big 64 small_image) small_image World.start = (.ok hd, w') ∧
      hd.page_size = 2048) ∧
    ∃ r, grub_android_bootimg_load_initrd (one_disk .big 64 small_image) "hd0,gpt2"
      World.start = some r := by
  have h36 : le32 small_image.data 36 = 2048 := by decide
  obtain ⟨⟨hd, w', h1, h2, -⟩, h3⟩ := page_size_positive_iff (one_disk .big 64 small_image)
    "hd0,gpt2" World.start small_image rfl (by decide) (by decide) (by decide) (by decide)
  exact ⟨⟨hd, w', h1, h2.trans h36⟩, h3 (by decide)⟩

/-- C11 as stated fails: on a device whose header has the magic, zero unused
words, `ramdisk_size = 300` and `page_size = 0`, `read_hdr` accepts the header
and hands back `page_size = 0`, and `grub_android_bootimg_load_initrd` then
divides by zero. -/
theorem zero_page_size_accepted :
    ∃ hd w', read_hdr (one_disk .little 64 zero_page_image) zero_page_image World.start
        = (.ok hd, w') ∧
      hd.page_size = 0 ∧ hd.ramdisk_size = 300 ∧
      grub_android_bootimg_load_initrd (one_disk .little 64 zero_page_image) "hd0,gpt6"
        World.start = none := by
  refine ⟨_, _, read_hdr_accept (one_disk .little 64 zero_page_image) zero_page_image
    World.start (by decide) (by decide) (by decide) (by decide), by decide, by decide, ?_⟩
  rw [load_initrd_accept (one_disk .little 64 zero_page_image) "hd0,gpt6" World.start
    zero_page_image rfl (by decide) (by decide) (by decide) (by decide) (by decide)
    (fun _ _ => rfl)]
  exact if_pos (by decide)

/-! ### C12: the size of the control block -/

/-- C12 (amended): the packed `struct bootloader_message` (`command` 32,
`status` 32, `recovery` 768, `stage` 32, `slot_suffix` 32, `reserved` 192) is
1088 bytes in total, and `read_message` on a device that opens makes exactly
one read request: 1088 bytes from offset 0 of that device. -/
theorem bootloader_message_read (P : Platform) (name : String) (w : World) (d : grub_disk)
    (hopen : P.disk_open name = .ok d) :
    sizeof_bootloader_message = 1088 ∧
    (read_message P name w).2.reads = (d.name, 0, 1088) :: w.reads := by
  have hs : sizeof_bootloader_message = 1088 := by decide
  refine ⟨hs, ?_⟩
  rw [← hs]
  by_cases hread : d.read_err 0 sizeof_bootloader_message = GRUB_ERR_NONE
  · by_cases hnul : ∃ i, i < 32 ∧ d.data i = 0
    · have hk := Nat.find_spec hnul
      rw [read_message_nul P name w d (Nat.find hnul) hopen hread hk.1 hk.2
        (fun i hi h0 => Nat.find_min hnul hi ⟨by omega, h0⟩)]
    · rw [read_message_no_nul P name w d hopen hread
        (fun i hi h0 => hnul ⟨i, hi, h0⟩)]
  · rw [read_message_read_fail P name w d hopen hread]

/-- An instance of C12 (amended): reading the control block of `recovery_bcb`
asks the device for 1088 bytes at offset 0 and for nothing else. -/
theorem bootloader_message_read_witness :
    (read_message (one_disk .little 64 recovery_bcb) "hd0,gpt5" World.start).2.reads
      = [("hd0,gpt5", 0, 1088)] :=
  (bootloader_message_read (one_disk .little 64 recovery_bcb) "hd0,gpt5" World.start
    recovery_bcb rfl).2

/-- C12 as stated fails: the members of `struct bootloader_message` add up to
1088 bytes, not 1184, and 1088 is the size `read_message` asks the device
for. -/
theorem bootloader_message_not_1184 :
    sizeof_bootloader_message = 32 + 32 + 768 + 32 + 32 + 192 ∧
    sizeof_bootloader_message = 1088 ∧ sizeof_bootloader_message ≠ 1184 ∧
    (read_message (one_disk .little 64 filled_disk) "hd2" World.start).2.reads
      = [("hd2", 0, 1088)] ∧
    (read_message (one_disk .little 64 filled_disk) "hd2" World.start).2.reads
      ≠ [("hd2", 0, 1184)] := by
  have h : (read_message (one_disk .little 64 filled_disk) "hd2" World.start).2.reads
      = [("hd2", 0, 1088)] := by
    rw [read_message_no_nul (one_disk .little 64 filled_disk) "hd2" World.start filled_disk
      rfl rfl (fun _ _ => (by decide : (0x41 : UInt8) ≠ 0))]
    rfl
  refine ⟨rfl, by decide, by decide, h, ?_⟩
  rw [h]
  decide

/-! ### C13: the command line handed to the caller -/

/-- C13: for every valid boot image, on either host byte order,
`grub_android_bootimg_load_kernel` stores exactly 512 bytes in the caller's
`cmdline` buffer, and they are the device bytes 64 to 575 (the `cmdline` member
of the on-disk header) one by one, with no byte-order change and no stop at a
NUL. -/
theorem load_kernel_cmdline (P : Platform) (path : String) (w : World) (d : grub_disk)
    (hopen : P.disk_open path = .ok d)
    (hread : d.read_err 0 sizeof_boot_img_hdr = GRUB_ERR_NONE)
    (hmagic : (List.range 8).map d.data = BOOT_MAGIC)
    (hu0 : le32 d.data 40 = 0) (hu1 : le32 d.data 44 = 0)
    (halloc : ∀ i, i < 4 → P.alloc_ok (w.allocs + i) = true) :
    ∃ c, (grub_android_bootimg_load_kernel P path w).cmdline = some c ∧
      c.length = BOOT_ARGS_SIZE ∧ c.length = 512 ∧
      (∀ i, i < 512 → c.getD i 0 = d.data (64 + i)) ∧
      c = (List.range 512).map (fun i => d.data (64 + i)) := by
  rw [load_kernel_accept P path w d hopen hread hmagic hu0 hu1 halloc]
  refine ⟨_, rfl, by simp [BOOT_ARGS_SIZE], by simp, ?_, rfl⟩
  intro i hi
  exact getD_map_range (fun i => d.data (64 + i)) 512 i hi

/-- An instance of C13 on a big-endian host: the command line `quiet`, NUL,
`x` arrives with the bytes after the NUL. -/
theorem load_kernel_cmdline_witness :
    ∃ c, (grub_android_bootimg_load_kernel (one_disk .big 32 cmdline_image) "hd0,gpt7"
        World.start).cmdline = some c ∧
      c.length = 512 ∧ c.take 8 = [0x71, 0x75, 0x69, 0x65, 0x74, 0x00, 0x78, 0x00] := by
  obtain ⟨c, h1, -, h2, -, h3⟩ := load_kernel_cmdline (one_disk .big 32 cmdline_image)
    "hd0,gpt7" World.start cmdline_image rfl (by decide) (by decide) (by decide) (by decide)
    (fun _ _ => rfl)
  refine ⟨c, h1, h2, ?_⟩
  rw [h3, ← List.map_take, List.take_range]
  decide

/-! ### C14: the end of a view fits the offset type -/

/-- C14: for every view that `grub_android_bootimg_load_kernel` or
`grub_android_bootimg_load_initrd` stores, whatever the device, the host and
the allocator, the base offset and the length are 32-bit values, so the exact
sum `base_offset + length` is below `2 ^ 64`, the range of `grub_off_t`. -/
theorem view_end_fits (P : Platform) (path : String) (w : World) :
    (∀ f, (grub_android_bootimg_load_kernel P path w).file = some f →
      f.data < 2 ^ 32 ∧ f.size < 2 ^ 32 ∧ f.data + f.size < 2 ^ 64) ∧
    (∀ r f, grub_android_bootimg_load_initrd P path w = some r → r.file = some f →
      f.data < 2 ^ 32 ∧ f.size < 2 ^ 32 ∧ f.data + f.size < 2 ^ 64) := by
  constructor
  · intro f h
    obtain ⟨h1, h2⟩ := load_kernel_file_bounds P path w f h
    exact ⟨h1, h2, by omega⟩
  · intro r f hr h
    obtain ⟨h1, h2⟩ := load_initrd_file_bounds P path w r f hr h
    exact ⟨h1, h2, by omega⟩

/-- Instances of C14: both loaders do store a view for `small_image`, the
kernel view ends at 6145 and the ramdisk view at 8492. -/
theorem view_end_fits_witness :
    (∃ f, (grub_android_bootimg_load_kernel (one_disk .little 64 small_image) "hd0,gpt2"
        World.start).file = some f ∧ f.data + f.size = 6145 ∧ f.data + f.size < 2 ^ 64) ∧
    (∃ r f, grub_android_bootimg_load_initrd (one_disk .little 64 small_image) "hd0,gpt2"
        World.start = some r ∧ r.file = some f ∧ f.data + f.size = 8492 ∧
        f.data + f.size < 2 ^ 64) := by
  have hk := load_kernel_accept (one_disk .little 64 small_image) "hd0,gpt2" World.start
    small_image rfl (by decide) (by decide) (by decide) (by decide) (fun _ _ => rfl)
  have hi := load_initrd_accept (one_disk .little 64 small_image) "hd0,gpt2" World.start
    small_image rfl (by decide) (by decide) (by decide) (by decide) (by decide)
    (fun _ _ => rfl)
  rw [if_neg (by decide)] at hi
  have hfit := view_end_fits (one_disk .little 64 small_image) "hd0,gpt2" World.start
  constructor
  · refine ⟨_, by rw [hk], ?_, (hfit.1 _ (by rw [hk])).2.2⟩
    decide
  · refine ⟨_, _, hi, rfl, ?_, (hfit.2 _ _ hi rfl).2.2⟩
    decide

/-! ### C15: where a view reads and what it hands back -/

/-- C15: for every view with `offset ≤ size` (sizes and positions within the
ranges of `grub_size_t` and `grub_off_t`), `grub_android_bootimg_read` makes
one device read, at byte position `base_offset + offset` and for the clamped
length `min (len, size - offset)`; when the device serves it, the buffer holds
exactly the device bytes of that range; when the device refuses it, the value
returned is `-1` and `grub_errno` holds the error of the device. -/
theorem bootimg_read_position (P : Platform) (f : grub_file) (len : Nat) (w : World)
    (hbits : P.size_bits ≤ 64) (hoff : f.offset ≤ f.size) (hsize : f.size < 2 ^ P.size_bits)
    (hpos : f.data + f.offset < 2 ^ 64) :
    (grub_android_bootimg_read P f len w).world.reads
      = (f.disk.name, f.data + f.offset, min len (f.size - f.offset)) :: w.reads ∧
    (f.disk.read_err (f.data + f.offset) (min len (f.size - f.offset)) = GRUB_ERR_NONE →
      (grub_android_bootimg_read P f len w).buf
        = (List.range (min len (f.size - f.offset))).map
            (fun i => f.disk.data (f.data + f.offset + i)) ∧
      (grub_android_bootimg_read P f len w).buf.length = min len (f.size - f.offset) ∧
      (grub_android_bootimg_read P f len w).world.grub_errno = GRUB_ERR_NONE) ∧
    (f.disk.read_err (f.data + f.offset) (min len (f.size - f.offset)) ≠ GRUB_ERR_NONE →
      (grub_android_bootimg_read P f len w).ret = -1 ∧
      (grub_android_bootimg_read P f len w).world.grub_errno
        = f.disk.read_err (f.data + f.offset) (min len (f.size - f.offset)) ∧
      (grub_android_bootimg_read P f len w).world.grub_errno ≠ GRUB_ERR_NONE) := by
  have hmod : (f.data + f.offset) % 2 ^ 64 = f.data + f.offset := Nat.mod_eq_of_lt hpos
  refine ⟨?_, ?_, ?_⟩
  · by_cases hread : f.disk.read_err (f.data + f.offset) (min len (f.size - f.offset))
        = GRUB_ERR_NONE
    · rw [bootimg_read_ok P f len w hbits hoff hsize (by rw [hmod]; exact hread), hmod]
    · rw [bootimg_read_fail P f len w hbits hoff hsize (by rw [hmod]; exact hread), hmod]
  · intro hread
    rw [bootimg_read_ok P f len w hbits hoff hsize (by rw [hmod]; exact hread), hmod]
    exact ⟨rfl, by simp, rfl⟩
  · intro hread
    rw [bootimg_read_fail P f len w hbits hoff hsize (by rw [hmod]; exact hread), hmod]
    exact ⟨rfl, rfl, hread⟩

/-- Two instances of C15: the kernel view of `small_image` at position 4000
asks for the 97 bytes at device position 6048, and a view of a device that
refuses the read returns `-1` with `GRUB_ERR_READ_ERROR` in `grub_errno`. -/
theorem bootimg_read_position_witness :
    (grub_android_bootimg_read (one_disk .little 32 small_image) kernel_view_at_4000 4096
      World.start).world.reads = [("hd0,gpt2", 6048, 97)] ∧
    (grub_android_bootimg_read (one_disk .little 32 small_image) kernel_view_at_4000 4096
      World.start).buf.length = 97 ∧
    (grub_android_bootimg_read (one_disk .little 32 broken_disk) broken_view 4096
      World.start).ret = -1 ∧
    (grub_android_bootimg_read (one_disk .little 32 broken_disk) broken_view 4096
      World.start).world.grub_errno = GRUB_ERR_READ_ERROR := by
  have h1 := bootimg_read_position (one_disk .little 32 small_image) kernel_view_at_4000 4096
    World.start (by decide) (by decide) (by decide) (by decide)
  have h2 := bootimg_read_position (one_disk .little 32 broken_disk) broken_view 4096
    World.start (by decide) (by decide) (by decide) (by decide)
  have h3 := h2.2.2 (by decide)
  exact ⟨h1.1, (h1.2.1 rfl).2.1, h3.1, h3.2.1⟩

/-! ### C16: who closes the device -/

/-- C16: once the device was opened, `grub_android_bootimg_load_kernel` either
fails (header rejected or an allocation refused): it returns an error other
than `GRUB_ERR_NONE`, stores no view and closes the device exactly once; or it
succeeds: it returns `GRUB_ERR_NONE`, does not close the device, and the view
it stores reads from that device.  The same holds for
`grub_android_bootimg_load_initrd` (whose failures include the zero
`ramdisk_size`) on every run except the one that divides by a zero
`page_size`, which happens only for a valid header with a ramdisk after all
four allocations were served. -/
theorem loaders_close_device (P : Platform) (path : String) (w : World) (d : grub_disk)
    (hopen : P.disk_open path = .ok d) :
    (((grub_android_bootimg_load_kernel P path w).ret ≠ GRUB_ERR_NONE ∧
        (grub_android_bootimg_load_kernel P path w).file = none ∧
        (grub_android_bootimg_load_kernel P path w).world.closed = d.name :: w.closed) ∨
      ((grub_android_bootimg_load_kernel P path w).ret = GRUB_ERR_NONE ∧
        (grub_android_bootimg_load_kernel P path w).world.closed = w.closed ∧
        ∃ f, (grub_android_bootimg_load_kernel P path w).file = some f ∧ f.disk = d)) ∧
    ((grub_android_bootimg_load_initrd P path w = none ∧
        d.read_err 0 sizeof_boot_img_hdr = GRUB_ERR_NONE ∧
        (List.range 8).map d.data = BOOT_MAGIC ∧ le32 d.data 40 = 0 ∧ le32 d.data 44 = 0 ∧
        le32 d.data 16 ≠ 0 ∧ (∀ i, i < 4 → P.alloc_ok (w.allocs + i) = true) ∧
        le32 d.data 36 = 0) ∨
      ∃ r, grub_android_bootimg_load_initrd P path w = some r ∧
        ((r.ret ≠ GRUB_ERR_NONE ∧ r.file = none ∧ r.world.closed = d.name :: w.closed) ∨
          (r.ret = GRUB_ERR_NONE ∧ r.world.closed = w.closed ∧
            ∃ f, r.file = some f ∧ f.disk = d))) := by
  by_cases hrej : d.read_err 0 sizeof_boot_img_hdr ≠ GRUB_ERR_NONE
      ∨ (List.range 8).map d.data ≠ BOOT_MAGIC ∨ le32 d.data 40 ≠ 0 ∨ le32 d.data 44 ≠ 0
  · rw [load_kernel_reject P path w d hopen hrej, load_initrd_reject P path w d hopen hrej]
    exact ⟨Or.inl ⟨(fun h => by cases h), rfl, rfl⟩,
      Or.inr ⟨_, rfl, Or.inl ⟨(fun h => by cases h), rfl, rfl⟩⟩⟩
  · simp only [not_or, not_not] at hrej
    obtain ⟨h1, h2, h3, h4⟩ := hrej
    by_cases halloc : ∀ i, i < 4 → P.alloc_ok (w.allocs + i) = true
    · constructor
      · rw [load_kernel_accept P path w d hopen h1 h2 h3 h4 halloc]
        exact Or.inr ⟨rfl, rfl, _, rfl, rfl⟩
      · by_cases hrd : le32 d.data 16 = 0
        · rw [load_initrd_no_ramdisk P path w d hopen h1 h2 h3 h4 hrd]
          exact Or.inr ⟨_, rfl, Or.inl ⟨(fun h => by cases h), rfl, rfl⟩⟩
        · rw [load_initrd_accept P path w d hopen h1 h2 h3 h4 hrd halloc]
          by_cases hp : le32 d.data 36 = 0
          · rw [if_pos hp]
            exact Or.inl ⟨rfl, h1, h2, h3, h4, hrd, halloc, hp⟩
          · rw [if_neg hp]
            exact Or.inr ⟨_, rfl, Or.inr ⟨rfl, rfl, _, rfl, rfl⟩⟩
    · constructor
      · obtain ⟨e1, e2, -, e4⟩ := load_kernel_alloc_fail P path w d hopen h1 h2 h3 h4 halloc
        exact Or.inl ⟨(by rw [e1]; decide), e2, e4⟩
      · by_cases hrd : le32 d.data 16 = 0
        · rw [load_initrd_no_ramdisk P path w d hopen h1 h2 h3 h4 hrd]
          exact Or.inr ⟨_, rfl, Or.inl ⟨(fun h => by cases h), rfl, rfl⟩⟩
        · obtain ⟨r, hr, e1, e2, e4⟩ :=
            load_initrd_alloc_fail P path w d hopen h1 h2 h3 h4 hrd halloc
          exact Or.inr ⟨r, hr, Or.inl ⟨(by rw [e1]; decide), e2, e4⟩⟩

/-- Instances of C16 on `small_image`: when the allocator refuses the third
request the kernel loader returns `GRUB_ERR_OUT_OF_MEMORY` and the device is
closed once; when it serves every request the kernel loader returns
`GRUB_ERR_NONE` and no device is closed. -/
theorem loaders_close_device_witness :
    ((grub_android_bootimg_load_kernel (refuse_request (one_disk .little 64 small_image) 2)
        "hd0,gpt2" World.start).ret = GRUB_ERR_OUT_OF_MEMORY ∧
      (grub_android_bootimg_load_kernel (refuse_request (one_disk .little 64 small_image) 2)
        "hd0,gpt2" World.start).world.closed = ["hd0,gpt2"]) ∧
    ((grub_android_bootimg_load_kernel (one_disk .little 64 small_image) "hd0,gpt2"
        World.start).ret = GRUB_ERR_NONE ∧
      (grub_android_bootimg_load_kernel (one_disk .little 64 small_image) "hd0,gpt2"
        World.start).world.closed = []) := by
  have hf := load_kernel_alloc_fail (refuse_request (one_disk .little 64 small_image) 2)
    "hd0,gpt2" World.start small_image rfl (by decide) (by decide) (by decide) (by decide)
    (fun h => absurd (h 2 (by decide)) (by decide))
  have hs := load_kernel_accept (one_disk .little 64 small_image) "hd0,gpt2" World.start
    small_image rfl (by decide) (by decide) (by decide) (by decide) (fun _ _ => rfl)
  constructor
  · rcases (loaders_close_device (refuse_request (one_disk .little 64 small_image) 2)
      "hd0,gpt2" World.start small_image rfl).1 with ⟨-, -, hc⟩ | ⟨hr, -, -⟩
    · exact ⟨hf.1, hc⟩
    · rw [hf.1] at hr
      cases hr
  · rcases (loaders_close_device (one_disk .little 64 small_image) "hd0,gpt2" World.start
      small_image rfl).1 with ⟨hr, -, -⟩ | ⟨hr, hc, -⟩
    · rw [hs] at hr
      exact absurd rfl hr
    · exact ⟨hr, hc⟩

/-! ### C17: the write hook accepts every value -/

/-- C17: for every new value written to `android_bcb_disk`, whether
`read_message` on it succeeds or fails, `handle_write` returns a copy equal to
the value (the allocator serving the copy); a failure of `read_message` is only
reported, after which `grub_errno` is clear. -/
theorem handle_write_accepts (P : Platform) (val : String) (w : World)
    (halloc : P.alloc_ok w.allocs = true) :
    (handle_write P val w).1 = some val ∧
    ((read_message P val w).1 ≠ GRUB_ERR_NONE →
      (handle_write P val w).2.grub_errno = GRUB_ERR_NONE) := by
  have ha := (read_message_frame P val w).1
  by_cases hr : (read_message P val w).1 = GRUB_ERR_NONE
  · simp only [handle_write, hr, ne_eq, not_true_eq_false, if_false, grub_strdup, grub_malloc,
      ha, halloc, if_true, true_and]
    intro h
    exact h.elim
  · simp only [handle_write, hr, ne_eq, not_false_eq_true, if_true, grub_strdup, grub_malloc,
      grub_print_error, ha, halloc, true_and]
    intro _
    trivial

/-- Three instances of C17: a device without a control block, a name that does
not open and a device with a control block; the value is handed back each
time. -/
theorem handle_write_accepts_witness :
    (read_message (one_disk .little 64 filled_disk) "hd2" World.start).1 = GRUB_ERR_BAD_FS ∧
    (handle_write (one_disk .little 64 filled_disk) "hd2" World.start).1 = some "hd2" ∧
    (handle_write (one_disk .little 64 filled_disk) "none" World.start).1 = some "none" ∧
    (handle_write (one_disk .little 64 recovery_bcb) "hd0,gpt5" World.start).1
      = some "hd0,gpt5" := by
  refine ⟨?_, (handle_write_accepts (one_disk .little 64 filled_disk) "hd2" World.start rfl).1,
    (handle_write_accepts (one_disk .little 64 filled_disk) "none" World.start rfl).1,
    (handle_write_accepts (one_disk .little 64 recovery_bcb) "hd0,gpt5" World.start rfl).1⟩
  rw [read_message_no_nul (one_disk .little 64 filled_disk) "hd2" World.start filled_disk
    rfl rfl (fun _ _ => (by decide : (0x41 : UInt8) ≠ 0))]

/-! ### C18: the kernel and the ramdisk do not overlap -/

/-- C18: for every valid header with `page_size > 0` whose exact
`page_size * (1 + ceil (kernel_size / page_size))` is below `2 ^ 32` (which
bounds `kernel_size + page_size - 1` as well), the base offset of the view that
`grub_android_bootimg_load_initrd` stores is the least multiple of `page_size`
that is at least `page_size + kernel_size`; so the range
`[page_size, page_size + kernel_size)` of the view that
`grub_android_bootimg_load_kernel` stores ends at or before it. -/
theorem views_do_not_overlap (P : Platform) (path : String) (wk wr : World) (d : grub_disk)
    (hopen : P.disk_open path = .ok d)
    (hread : d.read_err 0 sizeof_boot_img_hdr = GRUB_ERR_NONE)
    (hmagic : (List.range 8).map d.data = BOOT_MAGIC)
    (hu0 : le32 d.data 40 = 0) (hu1 : le32 d.data 44 = 0)
    (hrd : le32 d.data 16 ≠ 0)
    (hallock : ∀ i, i < 4 → P.alloc_ok (wk.allocs + i) = true)
    (hallocr : ∀ i, i < 4 → P.alloc_ok (wr.allocs + i) = true)
    (hp : 0 < le32 d.data 36)
    (hfit : le32 d.data 36 * (1 + ⌈(le32 d.data 8 : ℚ) / (le32 d.data 36 : ℚ)⌉₊) < 2 ^ 32) :
    ∃ fk r fr, (grub_android_bootimg_load_kernel P path wk).file = some fk ∧
      grub_android_bootimg_load_initrd P path wr = some r ∧ r.file = some fr ∧
      fk.data = le32 d.data 36 ∧ fk.size = le32 d.data 8 ∧
      le32 d.data 36 ∣ fr.data ∧ le32 d.data 36 + le32 d.data 8 ≤ fr.data ∧
      (∀ m, le32 d.data 36 ∣ m → le32 d.data 36 + le32 d.data 8 ≤ m → fr.data ≤ m) ∧
      fk.data + fk.size ≤ fr.data := by
  rw [ceil_div_eq _ _ hp] at hfit
  obtain ⟨h1, h2, h3⟩ := ramdisk_begin_least (device_hdr d.data) hp hfit
  rw [load_kernel_accept P path wk d hopen hread hmagic hu0 hu1 hallock,
    load_initrd_accept P path wr d hopen hread hmagic hu0 hu1 hrd hallocr,
    if_neg (Nat.pos_iff_ne_zero.mp hp)]
  exact ⟨_, _, _, rfl, rfl, rfl, rfl, rfl, h1, h2, h3, h2⟩

/-- An instance of C18: with 2048-byte pages and a 4097-byte kernel the kernel
view covers `[2048, 6145)` and the ramdisk view starts at 8192. -/
theorem views_do_not_overlap_witness :
    ∃ fk r fr, (grub_android_bootimg_load_kernel (one_disk .little 64 small_image) "hd0,gpt2"
        World.start).file = some fk ∧
      grub_android_bootimg_load_initrd (one_disk .little 64 small_image) "hd0,gpt2"
        World.start = some r ∧ r.file = some fr ∧
      fk.data = 2048 ∧ fk.size = 4097 ∧ fr.data = 8192 ∧ fk.data + fk.size ≤ fr.data := by
  have h8 : le32 small_image.data 8 = 4097 := by decide
  have h36 : le32 small_image.data 36 = 2048 := by decide
  have hc : ⌈((4097 : ℕ) : ℚ) / ((2048 : ℕ) : ℚ)⌉₊ = 3 := by
    rw [ceil_div_eq 4097 2048 (by norm_num)]
  obtain ⟨fk, r, fr, e1, e2, e3, e4, e5, e6, e7, e8, e9⟩ :=
    views_do_not_overlap (one_disk .little 64 small_image) "hd0,gpt2" World.start World.start
      small_image rfl (by decide) (by decide) (by decide) (by decide) (by decide)
      (fun _ _ => rfl) (fun _ _ => rfl) (by decide) (by rw [h8, h36, hc]; norm_num)
  rw [h36] at e4 e6 e7 e8
  rw [h8] at e5 e7 e8
  refine ⟨fk, r, fr, e1, e2, e3, e4, e5, ?_, e9⟩
  apply Nat.le_antisymm
  · exact e8 8192 ⟨4, rfl⟩ (by norm_num)
  · obtain ⟨q, hq⟩ := e6
    omega

/-! ### C19: what `read_hdr` checks -/

/-- C19: `read_hdr` returns success if and only if the read of the 1632 bytes
of the header succeeds, the first 8 bytes are the characters of `"ANDROID!"`
and both unused words are zero, and it fails with `GRUB_ERR_BAD_FS` otherwise;
two devices that agree on the outcome of that read and on the bytes 0 to 7 and
40 to 47 are accepted or rejected alike, whatever their other bytes. -/
theorem read_hdr_accepts_iff (P : Platform) (d : grub_disk) (w : World) :
    sizeof_boot_img_hdr = 1632 ∧
    BOOT_MAGIC = "ANDROID!".toList.map (fun c => UInt8.ofNat c.toNat) ∧
    ((∃ hd w', read_hdr P d w = (.ok hd, w')) ↔
      (d.read_err 0 1632 = GRUB_ERR_NONE ∧ (List.range 8).map d.data = BOOT_MAGIC ∧
        le32 d.data 40 = 0 ∧ le32 d.data 44 = 0)) ∧
    ((¬ ∃ hd w', read_hdr P d w = (.ok hd, w')) ↔
      (read_hdr P d w).1 = .error GRUB_ERR_BAD_FS) ∧
    (∀ d' : grub_disk, d'.read_err 0 1632 = d.read_err 0 1632 →
      (∀ i, i < 8 ∨ (40 ≤ i ∧ i < 48) → d'.data i = d.data i) →
      ((∃ hd w', read_hdr P d' w = (.ok hd, w')) ↔ (∃ hd w', read_hdr P d w = (.ok hd, w')))) := by
  have hs : sizeof_boot_img_hdr = 1632 := by decide
  have key : ∀ d : grub_disk, ((∃ hd w', read_hdr P d w = (.ok hd, w')) ↔
      (d.read_err 0 1632 = GRUB_ERR_NONE ∧ (List.range 8).map d.data = BOOT_MAGIC ∧
        le32 d.data 40 = 0 ∧ le32 d.data 44 = 0)) := by
    intro d
    rw [← hs]
    constructor
    · rintro ⟨hd, w', h⟩
      exact (read_hdr_ok_inv P d w w' hd h).2.2
    · rintro ⟨h1, h2, h3, h4⟩
      exact ⟨_, _, read_hdr_accept P d w h1 h2 h3 h4⟩
  refine ⟨hs, by decide, key d, ?_, ?_⟩
  · constructor
    · intro hno
      by_cases hrej : d.read_err 0 sizeof_boot_img_hdr ≠ GRUB_ERR_NONE
          ∨ (List.range 8).map d.data ≠ BOOT_MAGIC ∨ le32 d.data 40 ≠ 0 ∨ le32 d.data 44 ≠ 0
      · rw [read_hdr_reject P d w hrej]
      · simp only [not_or, not_not] at hrej
        exact absurd ⟨_, _, read_hdr_accept P d w hrej.1 hrej.2.1 hrej.2.2.1 hrej.2.2.2⟩ hno
    · rintro herr ⟨hd, w', h⟩
      rw [h] at herr
      cases herr
  · intro d' hread hbytes
    have hm : (List.range 8).map d'.data = (List.range 8).map d.data := by
      apply List.map_congr_left
      intro i hi
      exact hbytes i (Or.inl (List.mem_range.mp hi))
    have h40 : le32 d'.data 40 = le32 d.data 40 := by
      simp only [le32]
      rw [hbytes 40 (by omega), hbytes 41 (by omega), hbytes 42 (by omega),
        hbytes 43 (by omega)]
    have h44 : le32 d'.data 44 = le32 d.data 44 := by
      simp only [le32]
      rw [hbytes 44 (by omega), hbytes 45 (by omega), hbytes 46 (by omega),
        hbytes 47 (by omega)]
    rw [key d', key d, hread, hm, h40, h44]

/-- Two instances of C19: `small_image` is accepted on a big-endian host, and a
device that differs from it in the second unused word only is rejected. -/
theorem read_hdr_accepts_iff_witness :
    (∃ hd w', read_hdr (one_disk .big 32 small_image) small_image World.start = (.ok hd, w')) ∧
    (read_hdr (one_disk .big 32 small_image) reserved_word_image World.start).1
      = .error GRUB_ERR_BAD_FS := by
  have h1 := (read_hdr_accepts_iff (one_disk .big 32 small_image) small_image World.start).2.2.1
  have h2 := read_hdr_accepts_iff (one_disk .big 32 small_image) reserved_word_image World.start
  refine ⟨h1.mpr ⟨rfl, by decide, by decide, by decide⟩, h2.2.2.2.1.mp ?_⟩
  intro hacc
  exact absurd (h2.2.2.1.mp hacc).2.2.2 (by decide)

/-! ### C20: `read_message` publishes all or nothing -/

/-- C20: whenever `read_message` returns an error the environment is what it
was before the call; a failure to open the device and a failure to read it
are returned as the collaborator reported them (and left in `grub_errno`); no
key other than `android_bcb_command` is ever changed, and that key only when
`GRUB_ERR_NONE` is returned. -/
theorem read_message_atomic (P : Platform) (name : String) (w : World) :
    ((read_message P name w).1 ≠ GRUB_ERR_NONE → (read_message P name w).2.env = w.env) ∧
    (∀ key, key ≠ "android_bcb_command" → (read_message P name w).2.env key = w.env key) ∧
    ((read_message P name w).2.env "android_bcb_command" ≠ w.env "android_bcb_command" →
      (read_message P name w).1 = GRUB_ERR_NONE) ∧
    (∀ e, P.disk_open name = .error e →
      (read_message P name w).1 = e ∧ (read_message P name w).2.grub_errno = e ∧
      (read_message P name w).2.env = w.env) ∧
    (∀ d, P.disk_open name = .ok d → d.read_err 0 sizeof_bootloader_message ≠ GRUB_ERR_NONE →
      (read_message P name w).1 = d.read_err 0 sizeof_bootloader_message ∧
      (read_message P name w).2.grub_errno = d.read_err 0 sizeof_bootloader_message ∧
      (read_message P name w).2.env = w.env) ∧
    (∀ d, P.disk_open name = .ok d → d.read_err 0 sizeof_bootloader_message = GRUB_ERR_NONE →
      (∀ i, i < 32 → d.data i ≠ 0) →
      (read_message P name w).1 = GRUB_ERR_BAD_FS ∧ (read_message P name w).2.env = w.env) := by
  obtain ⟨-, hkeys, herr⟩ := read_message_frame P name w
  refine ⟨herr, hkeys, ?_, ?_, ?_, ?_⟩
  · intro hne
    by_contra hret
    exact hne (by rw [herr hret])
  · intro e hopen
    rw [read_message_open_fail P name w e hopen]
    exact ⟨rfl, rfl, rfl⟩
  · intro d hopen hread
    rw [read_message_read_fail P name w d hopen hread]
    exact ⟨rfl, rfl, rfl⟩
  · intro d hopen hread hno
    rw [read_message_no_nul P name w d hopen hread hno]
    exact ⟨rfl, rfl⟩

/-- Three instances of C20, each with the command `old` published before: a
name that does not open, a device that refuses the read and a device without
NUL in its command all leave `old` in place and return the error of the
failing step. -/
theorem read_message_atomic_witness :
    ((read_message (one_disk .little 64 broken_disk) "none" World.with_command).1
        = GRUB_ERR_UNKNOWN_DEVICE ∧
      (read_message (one_disk .little 64 broken_disk) "none" World.with_command).2.env
        "android_bcb_command" = some [0x6F, 0x6C, 0x64]) ∧
    ((read_message (one_disk .little 64 broken_disk) "hd3" World.with_command).1
        = GRUB_ERR_READ_ERROR ∧
      (read_message (one_disk .little 64 broken_disk) "hd3" World.with_command).2.env
        "android_bcb_command" = some [0x6F, 0x6C, 0x64]) ∧
    ((read_message (one_disk .little 64 filled_disk) "hd2" World.with_command).1
        = GRUB_ERR_BAD_FS ∧
      (read_message (one_disk .little 64 filled_disk) "hd2" World.with_command).2.env
        "android_bcb_command" = some [0x6F, 0x6C, 0x64]) := by
  have h1 := (read_message_atomic (one_disk .little 64 broken_disk) "none"
    World.with_command).2.2.2.1 GRUB_ERR_UNKNOWN_DEVICE rfl
  have h2 := (read_message_atomic (one_disk .little 64 broken_disk) "hd3"
    World.with_command).2.2.2.2.1 broken_disk rfl (by decide)
  have h3 := (read_message_atomic (one_disk .little 64 filled_disk) "hd2"
    World.with_command).2.2.2.2.2 filled_disk rfl rfl
    (fun _ _ => (by decide : (0x41 : UInt8) ≠ 0))
  exact ⟨⟨h1.1, by rw [h1.2.2]; rfl⟩, ⟨h2.1, by rw [h2.2.2]; rfl⟩, ⟨h3.1, by rw [h3.2]; rfl⟩⟩

end Grub
